import Mathlib

/-! Verification of the client-construction pipeline in
    src/rhttp/rust/src/api/client.rs.

    The pipeline (`create_client`) is embedded as a pure function that
    threads a reqwest builder, modelled as the list of configuration
    calls made on it, in source order.  The reqwest/std boundary —
    PEM parsing, the final `build()`, and `SocketAddr::from_str` — is
    modelled as follows: PEM parsing and `build()` are abstracted into an
    `Engine` record of fallible functions (they are external collaborators
    per the spec), while address parsing is embedded faithfully after
    Rust's `core::net::parser`, since the claims about DNS overrides
    depend on its exact behaviour. -/

namespace Rhttp

/-- Rust std `Ipv4Addr`: four octets, each below 256. -/
structure Ipv4Addr where
  o1 : Nat
  o2 : Nat
  o3 : Nat
  o4 : Nat
deriving DecidableEq

/-- Rust std `Ipv6Addr`: eight 16-bit groups (the parser always builds
    a list of length 8). -/
structure Ipv6Addr where
  groups : List Nat
deriving DecidableEq

/-- Rust std `IpAddr`. -/
inductive IpAddr where
  | v4 : Ipv4Addr → IpAddr
  | v6 : Ipv6Addr → IpAddr
deriving DecidableEq

/-- Rust std `SocketAddrV4`. -/
structure SocketAddrV4 where
  ip : Ipv4Addr
  port : Nat
deriving DecidableEq

/-- Rust std `SocketAddrV6` (flowinfo is always 0 when parsed from a string). -/
structure SocketAddrV6 where
  ip : Ipv6Addr
  port : Nat
  flowinfo : Nat
  scope_id : Nat
deriving DecidableEq

/-- Rust std `SocketAddr`. -/
inductive SocketAddr where
  | v4 : SocketAddrV4 → SocketAddr
  | v6 : SocketAddrV6 → SocketAddr
deriving DecidableEq

/-- Rust `char::to_digit`. -/
def toDigit (radix : Nat) (c : Char) : Option Nat :=
  let d? : Option Nat :=
    if '0' ≤ c ∧ c ≤ '9' then some (c.toNat - '0'.toNat)
    else if 'a' ≤ c ∧ c ≤ 'z' then some (c.toNat - 'a'.toNat + 10)
    else if 'A' ≤ c ∧ c ≤ 'Z' then some (c.toNat - 'A'.toNat + 10)
    else none
  match d? with
  | some d => if d < radix then some d else none
  | none => none

/-- Digit-consuming loop of Rust `Parser::read_number`: reads digits while
    they exist, aborting the whole parse (`none`) on overflow of the target
    type (`maxVal`) or on exceeding `maxDigits`.  Returns the accumulated
    value, the digit count and the unconsumed input. -/
def readNumberLoop (radix maxVal : Nat) (maxDigits : Option Nat) :
    Nat → Nat → List Char → Option (Nat × Nat × List Char)
  | result, digitCount, [] => some (result, digitCount, [])
  | result, digitCount, c :: rest =>
    match toDigit radix c with
    | none => some (result, digitCount, c :: rest)
    | some d =>
      let r := result * radix + d
      if maxVal < r then none
      else
        let dc := digitCount + 1
        match maxDigits with
        | some m =>
          if m < dc then none else readNumberLoop radix maxVal maxDigits r dc rest
        | none => readNumberLoop radix maxVal maxDigits r dc rest

/-- Rust `Parser::read_number`: at least one digit, and a leading zero is
    rejected when `allowZeroPrefix` is false and more than one digit was read. -/
def readNumber (radix maxVal : Nat) (maxDigits : Option Nat) (allowZeroPrefix : Bool)
    (input : List Char) : Option (Nat × List Char) :=
  let hasLeadingZero : Bool := match input with | '0' :: _ => true | _ => false
  match readNumberLoop radix maxVal maxDigits 0 0 input with
  | none => none
  | some (result, digitCount, rest) =>
    if digitCount = 0 then none
    else if allowZeroPrefix = false ∧ hasLeadingZero = true ∧ 1 < digitCount then none
    else some (result, rest)

/-- Rust `Parser::read_given_char`. -/
def readGivenChar (c : Char) : List Char → Option (List Char)
  | [] => none
  | x :: rest => if x = c then some rest else none

/-- Rust `Parser::read_ipv4_addr`: four octets (`read_number(10, Some(3), false)`
    into a `u8`) separated by dots. -/
def readIpv4Addr (input : List Char) : Option (Ipv4Addr × List Char) := do
  let (a, r) ← readNumber 10 255 (some 3) false input
  let r ← readGivenChar '.' r
  let (b, r) ← readNumber 10 255 (some 3) false r
  let r ← readGivenChar '.' r
  let (c, r) ← readNumber 10 255 (some 3) false r
  let r ← readGivenChar '.' r
  let (d, r) ← readNumber 10 255 (some 3) false r
  some (⟨a, b, c, d⟩, r)

/-- Rust `read_groups` inside `Parser::read_ipv6_addr`.  `remaining` is the
    number of group slots still available (8 for the head, at most 7 for the
    tail); `needSep` says whether a `:` separator must precede the next item
    (true except for the very first).  When at least two slots remain it
    first tries a trailing embedded IPv4 address, which fills two groups and
    ends the chunk.  Returns the groups read, whether an embedded IPv4
    address ended the chunk, and the unconsumed input. -/
def readGroupsA : Nat → Bool → List Nat → List Char → (List Nat × Bool × List Char)
  | 0, _, acc, input => (acc, false, input)
  | remaining + 1, needSep, acc, input =>
    let sep : List Char → Option (List Char) := fun inp =>
      if needSep then readGivenChar ':' inp else some inp
    let v4try : Option (Ipv4Addr × List Char) :=
      if remaining = 0 then none
      else
        match sep input with
        | none => none
        | some inp => readIpv4Addr inp
    match v4try with
    | some (v4, rest) =>
      (acc ++ [v4.o1 * 256 + v4.o2, v4.o3 * 256 + v4.o4], true, rest)
    | none =>
      match sep input with
      | none => (acc, false, input)
      | some inp =>
        match readNumber 16 65535 (some 4) true inp with
        | none => (acc, false, input)
        | some (g, rest) => readGroupsA remaining true (acc ++ [g]) rest

/-- Rust `Parser::read_ipv6_addr`: a head chunk of up to 8 groups; if fewer
    than 8 (and the head did not end in an embedded IPv4 address), a `::`
    followed by a tail chunk, the two chunks separated by zero groups. -/
def readIpv6Addr (input : List Char) : Option (Ipv6Addr × List Char) :=
  match readGroupsA 8 false [] input with
  | (head, headIpv4, r1) =>
    if head.length = 8 then some (⟨head⟩, r1)
    else if headIpv4 then none
    else
      match readGivenChar ':' r1 with
      | none => none
      | some r2 =>
        match readGivenChar ':' r2 with
        | none => none
        | some r3 =>
          match readGroupsA (8 - (head.length + 1)) false [] r3 with
          | (tail, _, r4) =>
            some (⟨head ++ List.replicate (8 - head.length - tail.length) 0 ++ tail⟩, r4)

/-- Rust `Parser::read_ip_addr`: IPv4 first, IPv6 only if IPv4 produced nothing. -/
def readIpAddr (input : List Char) : Option (IpAddr × List Char) :=
  match readIpv4Addr input with
  | some (a, r) => some (.v4 a, r)
  | none =>
    match readIpv6Addr input with
    | some (a, r) => some (.v6 a, r)
    | none => none

/-- Rust `IpAddr::from_str`: the parser must consume the entire string. -/
def ipAddrFromStr (s : String) : Option IpAddr :=
  match readIpAddr s.data with
  | some (a, []) => some a
  | _ => none

/-- Rust `Parser::read_port`: `:` then `read_number(10, None, true)` into a `u16`. -/
def readPort (input : List Char) : Option (Nat × List Char) :=
  match readGivenChar ':' input with
  | none => none
  | some r => readNumber 10 65535 none true r

/-- Rust `Parser::read_scope_id`: `%` then `read_number(10, None, true)` into a `u32`. -/
def readScopeId (input : List Char) : Option (Nat × List Char) :=
  match readGivenChar '%' input with
  | none => none
  | some r => readNumber 10 4294967295 none true r

/-- Rust `Parser::read_socket_addr_v4`. -/
def readSocketAddrV4 (input : List Char) : Option (SocketAddrV4 × List Char) := do
  let (ip, r) ← readIpv4Addr input
  let (port, r) ← readPort r
  some (⟨ip, port⟩, r)

/-- Rust `Parser::read_socket_addr_v6`: `[`, IPv6 address, optional scope id,
    `]`, then the port. -/
def readSocketAddrV6 (input : List Char) : Option (SocketAddrV6 × List Char) := do
  let r ← readGivenChar '[' input
  let (ip, r) ← readIpv6Addr r
  let sc : Nat × List Char :=
    match readScopeId r with
    | some (s, r2) => (s, r2)
    | none => (0, r)
  let r ← readGivenChar ']' sc.2
  let (port, r) ← readPort r
  some (⟨ip, port, 0, sc.1⟩, r)

/-- Rust `Parser::read_socket_addr`: V4 first, V6 only if V4 produced nothing. -/
def readSocketAddr (input : List Char) : Option (SocketAddr × List Char) :=
  match readSocketAddrV4 input with
  | some (a, r) => some (.v4 a, r)
  | none =>
    match readSocketAddrV6 input with
    | some (a, r) => some (.v6 a, r)
    | none => none

/-- Rust `SocketAddr::from_str`: the parser must consume the entire string. -/
def socketAddrFromStr (s : String) : Option SocketAddr :=
  match readSocketAddr s.data with
  | some (a, []) => some a
  | _ => none

/-! The settings model of client.rs. -/

/-- Modelled from the spec: the HTTP version preference enum declared in
    api/http.rs (outside the embedded file); its variants are exactly the
    ones matched in `create_client`. -/
inductive HttpVersionPref where
  | Http10
  | Http11
  | Http2
  | Http3
  | All
deriving DecidableEq

/-- Modelled from the spec: the error type declared in api/error.rs (outside
    the embedded file); `create_client` only ever constructs the
    `RhttpUnknownError` variant, which carries a message string. -/
inductive RhttpError where
  | RhttpUnknownError : String → RhttpError
deriving DecidableEq

/-- `ProxySettings` of client.rs. -/
inductive ProxySettings where
  | NoProxy
deriving DecidableEq

/-- `RedirectSettings` of client.rs; the redirect limit is an `i32`. -/
inductive RedirectSettings where
  | NoRedirect
  | LimitedRedirects : Int → RedirectSettings
deriving DecidableEq

/-- A `chrono::Duration`, as a signed number of nanoseconds. -/
abbrev ChronoDuration := Int

/-- A `std::time::Duration`, as an unsigned number of nanoseconds. -/
abbrev StdDuration := Nat

/-- `TimeoutSettings` of client.rs. -/
structure TimeoutSettings where
  timeout : Option ChronoDuration
  connect_timeout : Option ChronoDuration
  keep_alive_timeout : Option ChronoDuration
  keep_alive_ping : Option ChronoDuration
deriving DecidableEq

/-- `ClientCertificate` of client.rs: raw PEM byte buffers. -/
structure ClientCertificate where
  certificate : List Nat
  private_key : List Nat
deriving DecidableEq

/-- `TlsVersion` of client.rs. -/
inductive TlsVersion where
  | Tls1_2
  | Tls1_3
deriving DecidableEq

/-- `TlsSettings` of client.rs. -/
structure TlsSettings where
  trust_root_certificates : Bool
  trusted_root_certificates : List (List Nat)
  verify_certificates : Bool
  client_certificate : Option ClientCertificate
  min_tls_version : Option TlsVersion
  max_tls_version : Option TlsVersion
deriving DecidableEq

/-- `DnsSettings` of client.rs.  `overrides` is a
    `HashMap<String, Vec<String>>`; the map is modelled by the list of its
    entries in the order the `for` loop of `create_client` visits them
    (that iteration order is not fixed by the map's contents). -/
structure DnsSettings where
  overrides : List (String × List String)
  fallback : Option String
deriving DecidableEq

/-- `ClientSettings` of client.rs. -/
structure ClientSettings where
  http_version_pref : HttpVersionPref
  timeout_settings : Option TimeoutSettings
  throw_on_status_code : Bool
  proxy_settings : Option ProxySettings
  redirect_settings : Option RedirectSettings
  tls_settings : Option TlsSettings
  dns_settings : Option DnsSettings
deriving DecidableEq

/-- `impl Default for ClientSettings` of client.rs. -/
def ClientSettings.default : ClientSettings where
  http_version_pref := .All
  timeout_settings := none
  throw_on_status_code := true
  proxy_settings := none
  redirect_settings := none
  tls_settings := none
  dns_settings := none

/-! The reqwest builder boundary. -/

/-- `reqwest::tls::Version` values used by client.rs. -/
inductive ReqwestTlsVersion where
  | TLS_1_2
  | TLS_1_3
deriving DecidableEq

/-- The mapping from `TlsVersion` onto `reqwest::tls::Version` written
    inline (twice) in `create_client`. -/
def mapTlsVersion : TlsVersion → ReqwestTlsVersion
  | .Tls1_2 => .TLS_1_2
  | .Tls1_3 => .TLS_1_3

/-- `reqwest::redirect::Policy` as used by client.rs: `Policy::none()` or
    `Policy::limited(max)` with `max : usize`. -/
inductive RedirectPolicy where
  | none
  | limited : Nat → RedirectPolicy
deriving DecidableEq

/-- The Rust `as usize` cast of an `i32` on a 64-bit target: reinterpret the
    sign-extended two's-complement bits, i.e. reduce modulo 2^64. -/
def i32ToUsize (n : Int) : Nat := (n % (2 : Int) ^ 64).toNat

/-- `StaticResolver` of client.rs: holds one fixed socket address. -/
structure StaticResolver where
  address : SocketAddr
deriving DecidableEq

/-- `impl Resolve for StaticResolver`: ignores the requested name and
    immediately produces `Ok` of the one-element address list
    (`Box::new(vec![self.address].clone().into_iter())`).  The
    immediately-ready future is modelled by this being a total function. -/
def StaticResolver.resolve (r : StaticResolver) (_name : String) :
    Except String (List SocketAddr) :=
  Except.ok [r.address]

/-- One configuration call on the `reqwest::ClientBuilder`; the builder is
    modelled as the list of these calls in the order `create_client` makes
    them. -/
inductive BuilderOp where
  | no_proxy
  | redirect : RedirectPolicy → BuilderOp
  | timeout : StdDuration → BuilderOp
  | connect_timeout : StdDuration → BuilderOp
  | tcp_keepalive : StdDuration → BuilderOp
  | http2_keep_alive_while_idle : Bool → BuilderOp
  | http2_keep_alive_timeout : StdDuration → BuilderOp
  | http2_keep_alive_interval : StdDuration → BuilderOp
  | tls_built_in_root_certs : Bool → BuilderOp
  | add_root_certificate : List Nat → BuilderOp
  | danger_accept_invalid_certs : Bool → BuilderOp
  | identity : List Nat → BuilderOp
  | min_tls_version : ReqwestTlsVersion → BuilderOp
  | max_tls_version : ReqwestTlsVersion → BuilderOp
  | http1_only
  | http2_prior_knowledge
  | http3_prior_knowledge
  | dns_resolver : StaticResolver → BuilderOp
  | resolve_to_addrs : String → List SocketAddr → BuilderOp
deriving DecidableEq

/-- The external reqwest functions `create_client` calls whose behaviour is
    internal to reqwest: `Certificate::from_pem`, `Identity::from_pem`
    (parsed values are represented by byte lists) and the final
    `ClientBuilder::build` (`buildErr b = some e` means building the fully
    configured builder `b` fails with debug-formatted message `e`; `none`
    means it succeeds, the built client being represented by its
    configuration `b`). -/
structure Engine where
  certificateFromPem : List Nat → Except String (List Nat)
  identityFromPem : List Nat → Except String (List Nat)
  buildErr : List BuilderOp → Option String

/-- `RequestClient` of client.rs.  The `reqwest::Client` is represented by
    the builder configuration it was built from; the fresh
    `CancellationToken::new()` carries no data relevant to construction. -/
structure RequestClient where
  client : List BuilderOp
  http_version_pref : HttpVersionPref
  throw_on_status_code : Bool
  cancel_token : Unit
deriving DecidableEq

deriving instance DecidableEq for Except

/-! The construction pipeline, group by group in source order. -/

/-- `chrono::Duration::to_std`: fails exactly on negative durations, with
    the `OutOfRangeError` display message. -/
def chronoToStd (d : ChronoDuration) : Except String StdDuration :=
  if d < 0 then Except.error "Source duration value is out of range for the target type"
  else Except.ok d.toNat

/-- `std::time::Duration::as_millis`. -/
def asMillis (d : StdDuration) : Nat := d / 1000000

/-- The proxy block of `create_client`. -/
def applyProxy : Option ProxySettings → List BuilderOp → List BuilderOp
  | some .NoProxy, b => b ++ [.no_proxy]
  | none, b => b

/-- The redirect block of `create_client`:
    `Policy::none()` or `Policy::limited(max_redirects as usize)`. -/
def applyRedirect : Option RedirectSettings → List BuilderOp → List BuilderOp
  | some .NoRedirect, b => b ++ [.redirect .none]
  | some (.LimitedRedirects n), b => b ++ [.redirect (.limited (i32ToUsize n))]
  | none, b => b

/-- The `timeout` step of the timeout block. -/
def applyTotalTimeout (d? : Option ChronoDuration) (b : List BuilderOp) :
    Except RhttpError (List BuilderOp) :=
  match d? with
  | none => .ok b
  | some d =>
    match chronoToStd d with
    | .error e => .error (.RhttpUnknownError e)
    | .ok sd => .ok (b ++ [.timeout sd])

/-- The `connect_timeout` step of the timeout block. -/
def applyConnectTimeout (d? : Option ChronoDuration) (b : List BuilderOp) :
    Except RhttpError (List BuilderOp) :=
  match d? with
  | none => .ok b
  | some d =>
    match chronoToStd d with
    | .error e => .error (.RhttpUnknownError e)
    | .ok sd => .ok (b ++ [.connect_timeout sd])

/-- The `keep_alive_timeout` step of the timeout block: when the converted
    duration has `as_millis() > 0`, it sets the TCP keepalive, enables
    HTTP/2 keep-alive-while-idle and sets the HTTP/2 keep-alive timeout to
    the same duration; otherwise it does nothing. -/
def applyKeepAliveTimeout (d? : Option ChronoDuration) (b : List BuilderOp) :
    Except RhttpError (List BuilderOp) :=
  match d? with
  | none => .ok b
  | some d =>
    match chronoToStd d with
    | .error e => .error (.RhttpUnknownError e)
    | .ok sd =>
      if 0 < asMillis sd then
        .ok (b ++ [.tcp_keepalive sd, .http2_keep_alive_while_idle true,
                   .http2_keep_alive_timeout sd])
      else .ok b

/-- The `keep_alive_ping` step of the timeout block. -/
def applyKeepAlivePing (d? : Option ChronoDuration) (b : List BuilderOp) :
    Except RhttpError (List BuilderOp) :=
  match d? with
  | none => .ok b
  | some d =>
    match chronoToStd d with
    | .error e => .error (.RhttpUnknownError e)
    | .ok sd => .ok (b ++ [.http2_keep_alive_interval sd])

/-- The timeout block of `create_client`. -/
def applyTimeouts (ts? : Option TimeoutSettings) (b : List BuilderOp) :
    Except RhttpError (List BuilderOp) :=
  match ts? with
  | none => .ok b
  | some ts =>
    (applyTotalTimeout ts.timeout b).bind fun b =>
      (applyConnectTimeout ts.connect_timeout b).bind fun b =>
        (applyKeepAliveTimeout ts.keep_alive_timeout b).bind fun b =>
          applyKeepAlivePing ts.keep_alive_ping b

/-- The `\n` byte placed between the certificate and the private key. -/
def newlineByte : Nat := 10

/-- The identity blob of the client-certificate step: certificate PEM bytes,
    one newline byte, private-key PEM bytes, concatenated. -/
def identityBlob (cc : ClientCertificate) : List Nat :=
  cc.certificate ++ [newlineByte] ++ cc.private_key

/-- The `trusted_root_certificates` loop of the TLS block: each entry is
    parsed with `Certificate::from_pem` and added; the first parse failure
    aborts with the wrapped message. -/
def addRootCerts (eng : Engine) : List (List Nat) → List BuilderOp →
    Except RhttpError (List BuilderOp)
  | [], b => .ok b
  | cert :: rest, b =>
    match eng.certificateFromPem cert with
    | .error e =>
      .error (.RhttpUnknownError ("Error adding trusted certificate: " ++ e))
    | .ok c => addRootCerts eng rest (b ++ [.add_root_certificate c])

/-- The `trust_root_certificates` step of the TLS block:
    `tls_built_in_root_certs(false)` when the flag is unset. -/
def applyTrustRootCerts (flag : Bool) (b : List BuilderOp) : List BuilderOp :=
  if flag = false then b ++ [.tls_built_in_root_certs false] else b

/-- The `verify_certificates` step of the TLS block:
    `danger_accept_invalid_certs(true)` when the flag is unset. -/
def applyVerifyCerts (flag : Bool) (b : List BuilderOp) : List BuilderOp :=
  if flag = false then b ++ [.danger_accept_invalid_certs true] else b

/-- The `client_certificate` step of the TLS block: the identity blob is
    parsed with `Identity::from_pem`; failure aborts with the
    debug-formatted message. -/
def applyClientCertificate (eng : Engine) (cc? : Option ClientCertificate)
    (b : List BuilderOp) : Except RhttpError (List BuilderOp) :=
  match cc? with
  | none => .ok b
  | some cc =>
    match eng.identityFromPem (identityBlob cc) with
    | .error e => .error (.RhttpUnknownError e)
    | .ok i => .ok (b ++ [.identity i])

/-- The `min_tls_version` step of the TLS block. -/
def applyMinTls (v? : Option TlsVersion) (b : List BuilderOp) : List BuilderOp :=
  match v? with
  | none => b
  | some v => b ++ [.min_tls_version (mapTlsVersion v)]

/-- The `max_tls_version` step of the TLS block. -/
def applyMaxTls (v? : Option TlsVersion) (b : List BuilderOp) : List BuilderOp :=
  match v? with
  | none => b
  | some v => b ++ [.max_tls_version (mapTlsVersion v)]

/-- The TLS block of `create_client`, its six steps in source order. -/
def applyTls (eng : Engine) (tls? : Option TlsSettings) (b : List BuilderOp) :
    Except RhttpError (List BuilderOp) :=
  match tls? with
  | none => .ok b
  | some tls =>
    (addRootCerts eng tls.trusted_root_certificates
        (applyTrustRootCerts tls.trust_root_certificates b)).bind fun b =>
      (applyClientCertificate eng tls.client_certificate
          (applyVerifyCerts tls.verify_certificates b)).bind fun b =>
        .ok (applyMaxTls tls.max_tls_version (applyMinTls tls.min_tls_version b))

/-- The HTTP-version match of `create_client`. -/
def applyVersion : HttpVersionPref → List BuilderOp → List BuilderOp
  | .Http10, b => b ++ [.http1_only]
  | .Http11, b => b ++ [.http1_only]
  | .Http2, b => b ++ [.http2_prior_knowledge]
  | .Http3, b => b ++ [.http3_prior_knowledge]
  | .All, b => b

/-- The dummy port appended to every DNS address string before parsing. -/
def dummyPort : String := "1111"

/-- The display message of the `AddrParseError` returned by
    `SocketAddr::from_str`. -/
def socketAddrErrDisplay : String := "invalid socket address syntax"

/-- The debug formatting of the `AddrParseError` returned by
    `SocketAddr::from_str`, used for the fallback address. -/
def socketAddrErrDebug : String := "AddrParseError(Socket)"

/-- The error message built for an unparsable override address:
    `format!("Invalid IP address: {}. {}", ip, e)`. -/
def invalidIpMsg (ip : String) : String :=
  "Invalid IP address: " ++ ip ++ ". " ++ socketAddrErrDisplay

/-- The `map`/`filter_map` chain over one override's address list: each
    string (with the dummy port appended) is parsed as a socket address;
    parse failures are dropped from the collected list but the shared
    `error` variable ends up holding the message for the last failure. -/
def parseOverrideList : List String → Option String × List SocketAddr
  | [] => (none, [])
  | ip :: rest =>
    match socketAddrFromStr (ip ++ ":" ++ dummyPort) with
    | some a =>
      match parseOverrideList rest with
      | (e, addrs) => (e, a :: addrs)
    | none =>
      match parseOverrideList rest with
      | (some m, addrs) => (some m, addrs)
      | (none, addrs) => (some (invalidIpMsg ip), addrs)

/-- The `for dns_override in dns_settings.overrides` loop of
    `create_client`: any recorded parse error aborts; otherwise the
    hostname is bound to the collected addresses via `resolve_to_addrs`. -/
def applyOverrides : List (String × List String) → List BuilderOp →
    Except RhttpError (List BuilderOp)
  | [], b => .ok b
  | (hostname, ips) :: rest, b =>
    match parseOverrideList ips with
    | (some msg, _) => .error (.RhttpUnknownError msg)
    | (none, addrs) => applyOverrides rest (b ++ [.resolve_to_addrs hostname addrs])

/-- The fallback step of the DNS block: the fallback address, if present,
    is parsed (with the dummy port appended) and a `StaticResolver` bound
    to it is installed as the catch-all `dns_resolver`. -/
def applyFallback (fb? : Option String) (b : List BuilderOp) :
    Except RhttpError (List BuilderOp) :=
  match fb? with
  | none => .ok b
  | some fb =>
    match socketAddrFromStr (fb ++ ":" ++ dummyPort) with
    | some addr => .ok (b ++ [.dns_resolver ⟨addr⟩])
    | none => .error (.RhttpUnknownError socketAddrErrDebug)

/-- The DNS block of `create_client`: the fallback step, then the
    overrides loop. -/
def applyDns : Option DnsSettings → List BuilderOp →
    Except RhttpError (List BuilderOp)
  | none, b => .ok b
  | some dns, b =>
    (applyFallback dns.fallback b).bind fun b => applyOverrides dns.overrides b

/-- `create_client` of client.rs: the configuration groups are applied to
    the builder in source order — proxy, redirect, timeouts, TLS, HTTP
    version, DNS — then the builder is built and the `RequestClient` is
    assembled. -/
def createClient (eng : Engine) (settings : ClientSettings) :
    Except RhttpError RequestClient :=
  (applyTimeouts settings.timeout_settings
      (applyRedirect settings.redirect_settings
        (applyProxy settings.proxy_settings []))).bind fun b =>
    (applyTls eng settings.tls_settings b).bind fun b =>
      (applyDns settings.dns_settings
          (applyVersion settings.http_version_pref b)).bind fun b =>
        match eng.buildErr b with
        | some e => .error (.RhttpUnknownError e)
        | none =>
          .ok { client := b
                http_version_pref := settings.http_version_pref
                throw_on_status_code := settings.throw_on_status_code
                cancel_token := () }

/-! Classification of builder calls by the configuration group of
    `create_client` that makes them, used to state ordering properties. -/

/-- The configuration group a builder call belongs to: 0 proxy, 1 redirect,
    2 plain timeouts, 3 the keep-alive-timeout triple, 4 TLS, 5 HTTP-version
    forcing, 6 DNS. -/
def opGroup : BuilderOp → Nat
  | .no_proxy => 0
  | .redirect _ => 1
  | .timeout _ => 2
  | .connect_timeout _ => 2
  | .tcp_keepalive _ => 3
  | .http2_keep_alive_while_idle _ => 3
  | .http2_keep_alive_timeout _ => 3
  | .http2_keep_alive_interval _ => 2
  | .tls_built_in_root_certs _ => 4
  | .add_root_certificate _ => 4
  | .danger_accept_invalid_certs _ => 4
  | .identity _ => 4
  | .min_tls_version _ => 4
  | .max_tls_version _ => 4
  | .http1_only => 5
  | .http2_prior_knowledge => 5
  | .http3_prior_knowledge => 5
  | .dns_resolver _ => 6
  | .resolve_to_addrs _ _ => 6

/-! Success predicates for the fallible pipeline stages, phrased on the
    inputs; they characterise exactly when each stage avoids its error
    branches. -/

/-- Whether an `Except` holds a value. -/
def exceptIsOk {ε α : Type} : Except ε α → Bool
  | .ok _ => true
  | .error _ => false

/-- An optional duration converts with `to_std` iff absent or nonnegative. -/
def durOk : Option ChronoDuration → Bool
  | none => true
  | some d => decide (0 ≤ d)

/-- The timeout block takes no error branch iff every present duration is
    nonnegative. -/
def timeoutsOkB : Option TimeoutSettings → Bool
  | none => true
  | some ts =>
    durOk ts.timeout && durOk ts.connect_timeout &&
      durOk ts.keep_alive_timeout && durOk ts.keep_alive_ping

/-- The TLS block takes no error branch iff every trusted root certificate
    parses and the identity blob, when present, parses. -/
def tlsOkB (eng : Engine) : Option TlsSettings → Bool
  | none => true
  | some tls =>
    tls.trusted_root_certificates.all (fun c => exceptIsOk (eng.certificateFromPem c)) &&
      (match tls.client_certificate with
       | none => true
       | some cc => exceptIsOk (eng.identityFromPem (identityBlob cc)))

/-- The fallback step succeeds iff absent or parsing with the dummy port
    succeeds. -/
def fallbackOkB : Option String → Bool
  | none => true
  | some fb => (socketAddrFromStr (fb ++ ":" ++ dummyPort)).isSome

/-- One override entry records no parse error. -/
def overrideEntryOkB (e : String × List String) : Bool :=
  (parseOverrideList e.2).1.isNone

/-- The DNS block takes no error branch iff the fallback step succeeds and
    no override entry records a parse error. -/
def dnsOkB : Option DnsSettings → Bool
  | none => true
  | some dns => fallbackOkB dns.fallback && dns.overrides.all overrideEntryOkB

/-! Concrete engines and settings used to instantiate the theorems. -/

/-- An engine on which every external parse and the final build succeed,
    parsed values being the input bytes themselves. -/
def okEng : Engine where
  certificateFromPem := fun b => .ok b
  identityFromPem := fun b => .ok b
  buildErr := fun _ => none

/-- An engine whose final `build()` fails. -/
def failBuildEng : Engine where
  certificateFromPem := fun b => .ok b
  identityFromPem := fun b => .ok b
  buildErr := fun _ => some "reqwest build failure"

/-- An engine on which certificate parsing fails. -/
def badCertEng : Engine where
  certificateFromPem := fun _ => .error "pem parse failure"
  identityFromPem := fun _ => .error "identity parse failure"
  buildErr := fun _ => none

/-- Settings with one DNS override whose address list holds `"[::1]"`:
    not a literal IP address, yet accepted by the pipeline. -/
def sBracket : ClientSettings :=
  { ClientSettings.default with
    dns_settings := some { overrides := [("example.test", ["[::1]"])], fallback := none } }

/-- Settings with one DNS override whose list holds a valid and an invalid
    literal. -/
def sMixed : ClientSettings :=
  { ClientSettings.default with
    dns_settings := some
      { overrides := [("example.test", ["1.2.3.4", "not-an-ip"])], fallback := none } }

/-- Settings forcing HTTP/2 together with a DNS fallback. -/
def sHttp2Dns : ClientSettings :=
  { ClientSettings.default with
    http_version_pref := .Http2
    dns_settings := some { overrides := [], fallback := some "9.9.9.9" } }

/-- A timeout group whose only entry is a strictly positive keep-alive
    timeout of half a millisecond. -/
def tsHalfMilli : TimeoutSettings where
  timeout := none
  connect_timeout := none
  keep_alive_timeout := some 500000
  keep_alive_ping := none

/-- Settings carrying `tsHalfMilli`. -/
def sHalfMilli : ClientSettings :=
  { ClientSettings.default with timeout_settings := some tsHalfMilli }

/-- Settings whose DNS fallback is the plain IPv6 literal `::1`. -/
def sV6Fallback : ClientSettings :=
  { ClientSettings.default with
    dns_settings := some { overrides := [], fallback := some "::1" } }

/-- Settings with the fallback `9.9.9.9` and no overrides. -/
def sFallback99 : ClientSettings :=
  { ClientSettings.default with
    dns_settings := some { overrides := [], fallback := some "9.9.9.9" } }

/-- Settings whose two override entries each hold one invalid literal,
    in one iteration order of the map. -/
def sTwoBadA : ClientSettings :=
  { ClientSettings.default with
    dns_settings := some { overrides := [("a", ["x"]), ("b", ["y"])], fallback := none } }

/-- The same settings as `sTwoBadA` with the two map entries visited in the
    other order. -/
def sTwoBadB : ClientSettings :=
  { ClientSettings.default with
    dns_settings := some { overrides := [("b", ["y"]), ("a", ["x"])], fallback := none } }

/-- Settings with a present client certificate over concrete bytes. -/
def sClientCert : ClientSettings :=
  { ClientSettings.default with
    tls_settings := some
      { trust_root_certificates := true
        trusted_root_certificates := []
        verify_certificates := true
        client_certificate := some { certificate := [1, 2], private_key := [3] }
        min_tls_version := none
        max_tls_version := none } }

/-- Settings with one trusted root certificate over concrete bytes. -/
def sRootCert : ClientSettings :=
  { ClientSettings.default with
    tls_settings := some
      { trust_root_certificates := true
        trusted_root_certificates := [[7, 8]]
        verify_certificates := true
        client_certificate := none
        min_tls_version := none
        max_tls_version := none } }

/-- Settings with a limited-redirect policy of three. -/
def sRedirect3 : ClientSettings :=
  { ClientSettings.default with redirect_settings := some (.LimitedRedirects 3) }

/-- A timeout group whose only entry is a keep-alive timeout of five
    milliseconds. -/
def tsFiveMilli : TimeoutSettings where
  timeout := none
  connect_timeout := none
  keep_alive_timeout := some 5000000
  keep_alive_ping := none

/-- Settings carrying `tsFiveMilli`. -/
def sFiveMilli : ClientSettings :=
  { ClientSettings.default with timeout_settings := some tsFiveMilli }

/-- The client built from `sHttp2Dns` on `okEng`. -/
def rcHttp2Dns : RequestClient where
  client := [.http2_prior_knowledge, .dns_resolver ⟨.v4 ⟨⟨9, 9, 9, 9⟩, 1111⟩⟩]
  http_version_pref := .Http2
  throw_on_status_code := true
  cancel_token := ()

/-- The client built from `sFiveMilli` on `okEng`. -/
def rcFiveMilli : RequestClient where
  client := [.tcp_keepalive 5000000, .http2_keep_alive_while_idle true,
    .http2_keep_alive_timeout 5000000]
  http_version_pref := .All
  throw_on_status_code := true
  cancel_token := ()

/-- The client built from `sBracket` on `okEng`. -/
def rcBracket : RequestClient where
  client := [.resolve_to_addrs "example.test"
    [.v6 ⟨⟨[0, 0, 0, 0, 0, 0, 0, 1]⟩, 1111, 0, 0⟩]]
  http_version_pref := .All
  throw_on_status_code := true
  cancel_token := ()

/-- An empty-trace client with the default preference and flag. -/
def rcEmptyDefault : RequestClient where
  client := []
  http_version_pref := .All
  throw_on_status_code := true
  cancel_token := ()

/-- `f` configures the builder purely by appending calls satisfying `P`. -/
def OnlyAppends (P : BuilderOp → Prop)
    (f : List BuilderOp → Except RhttpError (List BuilderOp)) : Prop :=
  ∀ b b', f b = .ok b' → ∃ t, b' = b ++ t ∧ ∀ op ∈ t, P op

/-! Helper lemmas. -/

theorem except_bind_ok {ε α β : Type} {x : Except ε α} {f : α → Except ε β} {r : β} :
    x.bind f = .ok r ↔ ∃ a, x = .ok a ∧ f a = .ok r := by
  cases x <;> simp [Except.bind]

theorem except_bind_error {ε α β : Type} {x : Except ε α} {f : α → Except ε β} {e : ε} :
    x.bind f = .error e ↔ x = .error e ∨ ∃ a, x = .ok a ∧ f a = .error e := by
  cases x <;> simp [Except.bind]

theorem onlyAppends_mono {P Q : BuilderOp → Prop}
    {f : List BuilderOp → Except RhttpError (List BuilderOp)}
    (h : OnlyAppends P f) (himp : ∀ op, P op → Q op) : OnlyAppends Q f := by
  intro b b' hb
  rcases h b b' hb with ⟨t, rfl, ht⟩
  exact ⟨t, rfl, fun op hop => himp op (ht op hop)⟩

theorem onlyAppends_bind {P : BuilderOp → Prop}
    {f g : List BuilderOp → Except RhttpError (List BuilderOp)}
    (hf : OnlyAppends P f) (hg : OnlyAppends P g) :
    OnlyAppends P (fun b => (f b).bind g) := by
  intro b b' h
  rcases except_bind_ok.mp h with ⟨b1, hf1, hg1⟩
  rcases hf _ _ hf1 with ⟨t1, rfl, h1⟩
  rcases hg _ _ hg1 with ⟨t2, rfl, h2⟩
  refine ⟨t1 ++ t2, by simp, ?_⟩
  intro op hop
  rcases List.mem_append.mp hop with hm | hm
  exacts [h1 _ hm, h2 _ hm]

theorem applyProxy_delta (p? : Option ProxySettings) (b : List BuilderOp) :
    ∃ t, applyProxy p? b = b ++ t ∧ ∀ op ∈ t, opGroup op = 0 := by
  cases p? with
  | none => exact ⟨[], by simp [applyProxy], by simp⟩
  | some p => cases p; exact ⟨[.no_proxy], rfl, by simp [opGroup]⟩

theorem applyRedirect_delta (r? : Option RedirectSettings) (b : List BuilderOp) :
    ∃ t, applyRedirect r? b = b ++ t ∧ ∀ op ∈ t, opGroup op = 1 := by
  cases r? with
  | none => exact ⟨[], by simp [applyRedirect], by simp⟩
  | some r =>
    cases r with
    | NoRedirect => exact ⟨[.redirect .none], rfl, by simp [opGroup]⟩
    | LimitedRedirects n =>
      exact ⟨[.redirect (.limited (i32ToUsize n))], rfl, by simp [opGroup]⟩

theorem applyVersion_delta (v : HttpVersionPref) (b : List BuilderOp) :
    ∃ t, applyVersion v b = b ++ t ∧ ∀ op ∈ t, opGroup op = 5 := by
  cases v with
  | Http10 => exact ⟨[.http1_only], rfl, by simp [opGroup]⟩
  | Http11 => exact ⟨[.http1_only], rfl, by simp [opGroup]⟩
  | Http2 => exact ⟨[.http2_prior_knowledge], rfl, by simp [opGroup]⟩
  | Http3 => exact ⟨[.http3_prior_knowledge], rfl, by simp [opGroup]⟩
  | All => exact ⟨[], by simp [applyVersion], by simp⟩

theorem applyTotalTimeout_delta (d? : Option ChronoDuration) :
    OnlyAppends (fun op => opGroup op = 2) (applyTotalTimeout d?) := by
  intro b b' h
  cases d? with
  | none =>
    simp [applyTotalTimeout] at h
    exact ⟨[], by simp [h], by simp⟩
  | some d =>
    simp only [applyTotalTimeout] at h
    split at h
    · simp at h
    · rename_i sd _
      simp at h
      exact ⟨[.timeout sd], by simp [h], by simp [opGroup]⟩

theorem applyConnectTimeout_delta (d? : Option ChronoDuration) :
    OnlyAppends (fun op => opGroup op = 2) (applyConnectTimeout d?) := by
  intro b b' h
  cases d? with
  | none =>
    simp [applyConnectTimeout] at h
    exact ⟨[], by simp [h], by simp⟩
  | some d =>
    simp only [applyConnectTimeout] at h
    split at h
    · simp at h
    · rename_i sd _
      simp at h
      exact ⟨[.connect_timeout sd], by simp [h], by simp [opGroup]⟩

theorem applyKeepAliveTimeout_delta (d? : Option ChronoDuration) :
    OnlyAppends (fun op => opGroup op = 3) (applyKeepAliveTimeout d?) := by
  intro b b' h
  cases d? with
  | none =>
    simp [applyKeepAliveTimeout] at h
    exact ⟨[], by simp [h], by simp⟩
  | some d =>
    simp only [applyKeepAliveTimeout] at h
    split at h
    · simp at h
    · rename_i sd _
      split at h
      · simp at h
        exact ⟨[.tcp_keepalive sd, .http2_keep_alive_while_idle true,
                .http2_keep_alive_timeout sd], by simp [h], by simp [opGroup]⟩
      · simp at h
        exact ⟨[], by simp [h], by simp⟩

theorem applyKeepAlivePing_delta (d? : Option ChronoDuration) :
    OnlyAppends (fun op => opGroup op = 2) (applyKeepAlivePing d?) := by
  intro b b' h
  cases d? with
  | none =>
    simp [applyKeepAlivePing] at h
    exact ⟨[], by simp [h], by simp⟩
  | some d =>
    simp only [applyKeepAlivePing] at h
    split at h
    · simp at h
    · rename_i sd _
      simp at h
      exact ⟨[.http2_keep_alive_interval sd], by simp [h], by simp [opGroup]⟩

theorem applyTimeouts_delta (ts? : Option TimeoutSettings) :
    OnlyAppends (fun op => opGroup op = 2 ∨ opGroup op = 3) (applyTimeouts ts?) := by
  cases ts? with
  | none =>
    intro b b' h
    simp [applyTimeouts] at h
    exact ⟨[], by simp [h], by simp⟩
  | some ts =>
    have hchain :
        OnlyAppends (fun op => opGroup op = 2 ∨ opGroup op = 3)
          (fun b => (applyTotalTimeout ts.timeout b).bind fun b =>
            (applyConnectTimeout ts.connect_timeout b).bind fun b =>
              (applyKeepAliveTimeout ts.keep_alive_timeout b).bind fun b =>
                applyKeepAlivePing ts.keep_alive_ping b) :=
      onlyAppends_bind
        (onlyAppends_mono (applyTotalTimeout_delta ts.timeout) (fun _ h => Or.inl h))
        (onlyAppends_bind
          (onlyAppends_mono (applyConnectTimeout_delta ts.connect_timeout) (fun _ h => Or.inl h))
          (onlyAppends_bind
            (onlyAppends_mono (applyKeepAliveTimeout_delta ts.keep_alive_timeout)
              (fun _ h => Or.inr h))
            (onlyAppends_mono (applyKeepAlivePing_delta ts.keep_alive_ping)
              (fun _ h => Or.inl h))))
    intro b b' h
    exact hchain b b' h

theorem applyTrustRootCerts_delta (flag : Bool) (b : List BuilderOp) :
    ∃ t, applyTrustRootCerts flag b = b ++ t ∧ ∀ op ∈ t, opGroup op = 4 := by
  unfold applyTrustRootCerts
  split
  · exact ⟨[.tls_built_in_root_certs false], rfl, by simp [opGroup]⟩
  · exact ⟨[], by simp, by simp⟩

theorem applyVerifyCerts_delta (flag : Bool) (b : List BuilderOp) :
    ∃ t, applyVerifyCerts flag b = b ++ t ∧ ∀ op ∈ t, opGroup op = 4 := by
  unfold applyVerifyCerts
  split
  · exact ⟨[.danger_accept_invalid_certs true], rfl, by simp [opGroup]⟩
  · exact ⟨[], by simp, by simp⟩

theorem applyMinTls_delta (v? : Option TlsVersion) (b : List BuilderOp) :
    ∃ t, applyMinTls v? b = b ++ t ∧ ∀ op ∈ t, opGroup op = 4 := by
  cases v? with
  | none => exact ⟨[], by simp [applyMinTls], by simp⟩
  | some v => exact ⟨[.min_tls_version (mapTlsVersion v)], rfl, by simp [opGroup]⟩

theorem applyMaxTls_delta (v? : Option TlsVersion) (b : List BuilderOp) :
    ∃ t, applyMaxTls v? b = b ++ t ∧ ∀ op ∈ t, opGroup op = 4 := by
  cases v? with
  | none => exact ⟨[], by simp [applyMaxTls], by simp⟩
  | some v => exact ⟨[.max_tls_version (mapTlsVersion v)], rfl, by simp [opGroup]⟩

theorem addRootCerts_delta (eng : Engine) (certs : List (List Nat)) :
    OnlyAppends (fun op => opGroup op = 4) (addRootCerts eng certs) := by
  induction certs with
  | nil =>
    intro b b' h
    simp [addRootCerts] at h
    exact ⟨[], by simp [h], by simp⟩
  | cons c rest ih =>
    intro b b' h
    simp only [addRootCerts] at h
    split at h
    · simp at h
    · rename_i pc _
      rcases ih _ _ h with ⟨t, rfl, ht⟩
      refine ⟨.add_root_certificate pc :: t, by simp, ?_⟩
      intro op hop
      rcases List.mem_cons.mp hop with rfl | hmem
      · simp [opGroup]
      · exact ht _ hmem

theorem applyClientCertificate_delta (eng : Engine) (cc? : Option ClientCertificate) :
    OnlyAppends (fun op => opGroup op = 4) (applyClientCertificate eng cc?) := by
  intro b b' h
  cases cc? with
  | none =>
    simp [applyClientCertificate] at h
    exact ⟨[], by simp [h], by simp⟩
  | some cc =>
    simp only [applyClientCertificate] at h
    split at h
    · simp at h
    · rename_i i _
      simp at h
      exact ⟨[.identity i], by simp [h], by simp [opGroup]⟩

theorem applyTls_delta (eng : Engine) (tls? : Option TlsSettings) :
    OnlyAppends (fun op => opGroup op = 4) (applyTls eng tls?) := by
  intro b b' h
  cases tls? with
  | none =>
    simp [applyTls] at h
    exact ⟨[], by simp [h], by simp⟩
  | some tls =>
    simp only [applyTls] at h
    rcases except_bind_ok.mp h with ⟨b1, h1, h2⟩
    rcases except_bind_ok.mp h2 with ⟨b2, h3, h4⟩
    simp at h4
    rcases applyTrustRootCerts_delta tls.trust_root_certificates b with ⟨t0, he0, hp0⟩
    rw [he0] at h1
    rcases addRootCerts_delta eng tls.trusted_root_certificates _ _ h1 with ⟨t1, rfl, hp1⟩
    rcases applyVerifyCerts_delta tls.verify_certificates (b ++ t0 ++ t1) with ⟨t2, he2, hp2⟩
    rw [he2] at h3
    rcases applyClientCertificate_delta eng tls.client_certificate _ _ h3 with ⟨t3, rfl, hp3⟩
    rcases applyMinTls_delta tls.min_tls_version (b ++ t0 ++ t1 ++ t2 ++ t3) with ⟨t4, he4, hp4⟩
    rcases applyMaxTls_delta tls.max_tls_version (b ++ t0 ++ t1 ++ t2 ++ t3 ++ t4) with ⟨t5, he5, hp5⟩
    refine ⟨t0 ++ t1 ++ t2 ++ t3 ++ t4 ++ t5, ?_, ?_⟩
    · rw [← h4, he4, he5]
      simp
    · intro op hop
      simp only [List.mem_append] at hop
      rcases hop with ((((hm | hm) | hm) | hm) | hm) | hm
      exacts [hp0 _ hm, hp1 _ hm, hp2 _ hm, hp3 _ hm, hp4 _ hm, hp5 _ hm]

theorem applyFallback_delta (fb? : Option String) :
    OnlyAppends (fun op => opGroup op = 6) (applyFallback fb?) := by
  intro b b' h
  cases fb? with
  | none =>
    simp [applyFallback] at h
    exact ⟨[], by simp [h], by simp⟩
  | some fb =>
    simp only [applyFallback] at h
    split at h
    · rename_i addr _
      simp at h
      exact ⟨[.dns_resolver ⟨addr⟩], by simp [h], by simp [opGroup]⟩
    · simp at h

theorem applyOverrides_delta (l : List (String × List String)) :
    OnlyAppends (fun op => opGroup op = 6) (applyOverrides l) := by
  induction l with
  | nil =>
    intro b b' h
    simp [applyOverrides] at h
    exact ⟨[], by simp [h], by simp⟩
  | cons e rest ih =>
    intro b b' h
    simp only [applyOverrides] at h
    split at h
    · simp at h
    · rename_i addrs _
      rcases ih _ _ h with ⟨t, rfl, ht⟩
      refine ⟨.resolve_to_addrs e.1 addrs :: t, by simp, ?_⟩
      intro op hop
      rcases List.mem_cons.mp hop with rfl | hmem
      · simp [opGroup]
      · exact ht _ hmem

theorem applyDns_delta (dns? : Option DnsSettings) :
    OnlyAppends (fun op => opGroup op = 6) (applyDns dns?) := by
  cases dns? with
  | none =>
    intro b b' h
    simp [applyDns] at h
    exact ⟨[], by simp [h], by simp⟩
  | some dns =>
    intro b b' h
    exact onlyAppends_bind (applyFallback_delta dns.fallback)
      (applyOverrides_delta dns.overrides) b b' h

theorem createClient_ok_elim {eng : Engine} {s : ClientSettings} {rc : RequestClient}
    (h : createClient eng s = .ok rc) :
    ∃ b1 b2 b3,
      applyTimeouts s.timeout_settings
        (applyRedirect s.redirect_settings (applyProxy s.proxy_settings [])) = .ok b1 ∧
      applyTls eng s.tls_settings b1 = .ok b2 ∧
      applyDns s.dns_settings (applyVersion s.http_version_pref b2) = .ok b3 ∧
      eng.buildErr b3 = none ∧
      rc = { client := b3
             http_version_pref := s.http_version_pref
             throw_on_status_code := s.throw_on_status_code
             cancel_token := () } := by
  simp only [createClient] at h
  rcases except_bind_ok.mp h with ⟨b1, h1, h2⟩
  rcases except_bind_ok.mp h2 with ⟨b2, h3, h4⟩
  rcases except_bind_ok.mp h4 with ⟨b3, h5, h6⟩
  split at h6
  · simp at h6
  · rename_i hb
    simp at h6
    exact ⟨b1, b2, b3, h1, h3, h5, hb, h6.symm⟩

theorem createClient_ok_intro {eng : Engine} {s : ClientSettings} {b1 b2 b3 : List BuilderOp}
    (h1 : applyTimeouts s.timeout_settings
        (applyRedirect s.redirect_settings (applyProxy s.proxy_settings [])) = .ok b1)
    (h2 : applyTls eng s.tls_settings b1 = .ok b2)
    (h3 : applyDns s.dns_settings (applyVersion s.http_version_pref b2) = .ok b3)
    (h4 : eng.buildErr b3 = none) :
    createClient eng s = .ok { client := b3
                               http_version_pref := s.http_version_pref
                               throw_on_status_code := s.throw_on_status_code
                               cancel_token := () } := by
  simp [createClient, h1, h2, h3, h4, Except.bind]

theorem createClient_err_dns {eng : Engine} {s : ClientSettings} {b1 b2 : List BuilderOp}
    {e : RhttpError}
    (h1 : applyTimeouts s.timeout_settings
        (applyRedirect s.redirect_settings (applyProxy s.proxy_settings [])) = .ok b1)
    (h2 : applyTls eng s.tls_settings b1 = .ok b2)
    (h3 : applyDns s.dns_settings (applyVersion s.http_version_pref b2) = .error e) :
    createClient eng s = .error e := by
  simp [createClient, h1, h2, h3, Except.bind]

theorem chronoToStd_ok_of {d : ChronoDuration} (h : 0 ≤ d) :
    chronoToStd d = .ok d.toNat := by
  unfold chronoToStd
  rw [if_neg (Int.not_lt.mpr h)]

theorem chronoToStd_ok_imp {d : ChronoDuration} {sd : StdDuration}
    (h : chronoToStd d = .ok sd) : 0 ≤ d ∧ sd = d.toNat := by
  unfold chronoToStd at h
  split at h
  · simp at h
  · rename_i hd
    simp at h
    exact ⟨Int.not_lt.mp hd, h.symm⟩

theorem applyTotalTimeout_ok_of {d? : Option ChronoDuration} (h : durOk d? = true)
    (b : List BuilderOp) : ∃ b', applyTotalTimeout d? b = .ok b' := by
  cases d? with
  | none => exact ⟨b, rfl⟩
  | some d =>
    have hd : (0 : Int) ≤ d := of_decide_eq_true h
    exact ⟨b ++ [.timeout d.toNat], by simp [applyTotalTimeout, chronoToStd_ok_of hd]⟩

theorem applyTotalTimeout_ok_imp {d? : Option ChronoDuration} {b b' : List BuilderOp}
    (h : applyTotalTimeout d? b = .ok b') : durOk d? = true := by
  cases d? with
  | none => rfl
  | some d =>
    simp only [applyTotalTimeout] at h
    split at h
    · simp at h
    · rename_i sd heq
      rcases chronoToStd_ok_imp heq with ⟨hd, _⟩
      simp [durOk, hd]

theorem applyConnectTimeout_ok_of {d? : Option ChronoDuration} (h : durOk d? = true)
    (b : List BuilderOp) : ∃ b', applyConnectTimeout d? b = .ok b' := by
  cases d? with
  | none => exact ⟨b, rfl⟩
  | some d =>
    have hd : (0 : Int) ≤ d := of_decide_eq_true h
    exact ⟨b ++ [.connect_timeout d.toNat],
      by simp [applyConnectTimeout, chronoToStd_ok_of hd]⟩

theorem applyConnectTimeout_ok_imp {d? : Option ChronoDuration} {b b' : List BuilderOp}
    (h : applyConnectTimeout d? b = .ok b') : durOk d? = true := by
  cases d? with
  | none => rfl
  | some d =>
    simp only [applyConnectTimeout] at h
    split at h
    · simp at h
    · rename_i sd heq
      rcases chronoToStd_ok_imp heq with ⟨hd, _⟩
      simp [durOk, hd]

theorem applyKeepAliveTimeout_ok_of {d? : Option ChronoDuration} (h : durOk d? = true)
    (b : List BuilderOp) : ∃ b', applyKeepAliveTimeout d? b = .ok b' := by
  cases d? with
  | none => exact ⟨b, rfl⟩
  | some d =>
    have hd : (0 : Int) ≤ d := of_decide_eq_true h
    by_cases hm : 0 < asMillis d.toNat
    · exact ⟨b ++ [.tcp_keepalive d.toNat, .http2_keep_alive_while_idle true,
        .http2_keep_alive_timeout d.toNat],
        by simp [applyKeepAliveTimeout, chronoToStd_ok_of hd, hm]⟩
    · exact ⟨b, by simp [applyKeepAliveTimeout, chronoToStd_ok_of hd, hm]⟩

theorem applyKeepAliveTimeout_ok_imp {d? : Option ChronoDuration} {b b' : List BuilderOp}
    (h : applyKeepAliveTimeout d? b = .ok b') : durOk d? = true := by
  cases d? with
  | none => rfl
  | some d =>
    simp only [applyKeepAliveTimeout] at h
    split at h
    · simp at h
    · rename_i sd heq
      rcases chronoToStd_ok_imp heq with ⟨hd, _⟩
      simp [durOk, hd]

theorem applyKeepAlivePing_ok_of {d? : Option ChronoDuration} (h : durOk d? = true)
    (b : List BuilderOp) : ∃ b', applyKeepAlivePing d? b = .ok b' := by
  cases d? with
  | none => exact ⟨b, rfl⟩
  | some d =>
    have hd : (0 : Int) ≤ d := of_decide_eq_true h
    exact ⟨b ++ [.http2_keep_alive_interval d.toNat],
      by simp [applyKeepAlivePing, chronoToStd_ok_of hd]⟩

theorem applyKeepAlivePing_ok_imp {d? : Option ChronoDuration} {b b' : List BuilderOp}
    (h : applyKeepAlivePing d? b = .ok b') : durOk d? = true := by
  cases d? with
  | none => rfl
  | some d =>
    simp only [applyKeepAlivePing] at h
    split at h
    · simp at h
    · rename_i sd heq
      rcases chronoToStd_ok_imp heq with ⟨hd, _⟩
      simp [durOk, hd]

theorem applyTimeouts_ok_of {ts? : Option TimeoutSettings} (h : timeoutsOkB ts? = true)
    (b : List BuilderOp) : ∃ b', applyTimeouts ts? b = .ok b' := by
  cases ts? with
  | none => exact ⟨b, rfl⟩
  | some ts =>
    simp only [timeoutsOkB, Bool.and_eq_true] at h
    obtain ⟨⟨⟨h1, h2⟩, h3⟩, h4⟩ := h
    obtain ⟨b1, hb1⟩ := applyTotalTimeout_ok_of h1 b
    obtain ⟨b2, hb2⟩ := applyConnectTimeout_ok_of h2 b1
    obtain ⟨b3, hb3⟩ := applyKeepAliveTimeout_ok_of h3 b2
    obtain ⟨b4, hb4⟩ := applyKeepAlivePing_ok_of h4 b3
    exact ⟨b4, by simp [applyTimeouts, hb1, hb2, hb3, hb4, Except.bind]⟩

theorem applyTimeouts_ok_imp {ts? : Option TimeoutSettings} {b b' : List BuilderOp}
    (h : applyTimeouts ts? b = .ok b') : timeoutsOkB ts? = true := by
  cases ts? with
  | none => rfl
  | some ts =>
    simp only [applyTimeouts] at h
    rcases except_bind_ok.mp h with ⟨b1, h1, h⟩
    rcases except_bind_ok.mp h with ⟨b2, h2, h⟩
    rcases except_bind_ok.mp h with ⟨b3, h3, h4⟩
    simp [timeoutsOkB, applyTotalTimeout_ok_imp h1, applyConnectTimeout_ok_imp h2,
      applyKeepAliveTimeout_ok_imp h3, applyKeepAlivePing_ok_imp h4]

theorem applyTimeouts_keepalive {ts : TimeoutSettings} {b b' : List BuilderOp}
    (h : applyTimeouts (some ts) b = .ok b') {d : ChronoDuration}
    (hk : ts.keep_alive_timeout = some d) :
    ∃ sd, chronoToStd d = .ok sd ∧
      (asMillis sd = 0 → ∀ op ∈ b', op ∈ b ∨ opGroup op = 2) ∧
      (0 < asMillis sd → .tcp_keepalive sd ∈ b' ∧
        .http2_keep_alive_while_idle true ∈ b' ∧ .http2_keep_alive_timeout sd ∈ b') := by
  simp only [applyTimeouts] at h
  rcases except_bind_ok.mp h with ⟨b1, h1, h⟩
  rcases except_bind_ok.mp h with ⟨b2, h2, h⟩
  rcases except_bind_ok.mp h with ⟨b3, h3, h4⟩
  rw [hk] at h3
  simp only [applyKeepAliveTimeout] at h3
  split at h3
  · simp at h3
  · rename_i sd heq
    rcases applyTotalTimeout_delta _ _ _ h1 with ⟨t1, rfl, hp1⟩
    rcases applyConnectTimeout_delta _ _ _ h2 with ⟨t2, rfl, hp2⟩
    rcases applyKeepAlivePing_delta _ _ _ h4 with ⟨t4, rfl, hp4⟩
    refine ⟨sd, heq, ?_, ?_⟩
    · intro hz op hop
      rw [if_neg (by omega)] at h3
      simp at h3
      subst h3
      simp only [List.mem_append] at hop
      rcases hop with (hm | hm | hm) | hm
      · exact Or.inl hm
      · exact Or.inr (hp1 _ hm)
      · exact Or.inr (hp2 _ hm)
      · exact Or.inr (hp4 _ hm)
    · intro hpos
      rw [if_pos hpos] at h3
      simp at h3
      subst h3
      refine ⟨?_, ?_, ?_⟩ <;> simp

theorem base_ops (p? : Option ProxySettings) (r? : Option RedirectSettings) :
    ∀ op ∈ applyRedirect r? (applyProxy p? []), opGroup op ≤ 1 := by
  rcases applyProxy_delta p? [] with ⟨t0, he0, hp0⟩
  rcases applyRedirect_delta r? (applyProxy p? []) with ⟨t1, he1, hp1⟩
  intro op hop
  rw [he1, he0] at hop
  simp only [List.nil_append, List.mem_append] at hop
  rcases hop with hm | hm
  · exact le_of_eq (hp0 _ hm) |>.trans (by omega)
  · exact le_of_eq (hp1 _ hm)

theorem createClient_decomp {eng : Engine} {s : ClientSettings} {rc : RequestClient}
    (h : createClient eng s = .ok rc) :
    ∃ pre ver dns, rc.client = pre ++ ver ++ dns ∧
      (∀ op ∈ pre, opGroup op ≤ 4) ∧
      (∀ op ∈ ver, opGroup op = 5) ∧
      (∀ op ∈ dns, opGroup op = 6) := by
  rcases createClient_ok_elim h with ⟨b1, b2, b3, h1, h2, h3, _, rfl⟩
  rcases applyTimeouts_delta _ _ _ h1 with ⟨t2, rfl, hp2⟩
  rcases applyTls_delta eng _ _ _ h2 with ⟨t3, rfl, hp3⟩
  rcases applyVersion_delta s.http_version_pref _ with ⟨t4, he4, hp4⟩
  rw [he4] at h3
  rcases applyDns_delta _ _ _ h3 with ⟨t5, rfl, hp5⟩
  refine ⟨applyRedirect s.redirect_settings (applyProxy s.proxy_settings []) ++ t2 ++ t3,
    t4, t5, by simp, ?_, hp4, hp5⟩
  intro op hop
  simp only [List.mem_append] at hop
  rcases hop with (hm | hm) | hm
  · exact (base_ops _ _ _ hm).trans (by omega)
  · rcases hp2 _ hm with h2g | h3g
    · omega
    · omega
  · exact le_of_eq (hp3 _ hm)

theorem createClient_keepalive {eng : Engine} {s : ClientSettings} {ts : TimeoutSettings}
    {d : ChronoDuration} {rc : RequestClient}
    (hts : s.timeout_settings = some ts) (hk : ts.keep_alive_timeout = some d)
    (h : createClient eng s = .ok rc) :
    ∃ sd, chronoToStd d = .ok sd ∧
      (asMillis sd = 0 → ∀ op ∈ rc.client, opGroup op ≠ 3) ∧
      (0 < asMillis sd → .tcp_keepalive sd ∈ rc.client ∧
        .http2_keep_alive_while_idle true ∈ rc.client ∧
        .http2_keep_alive_timeout sd ∈ rc.client) := by
  rcases createClient_ok_elim h with ⟨b1, b2, b3, h1, h2, h3, _, rfl⟩
  rw [hts] at h1
  rcases applyTimeouts_keepalive h1 hk with ⟨sd, hsd, hzero, hpos⟩
  rcases applyTls_delta eng _ _ _ h2 with ⟨t3, rfl, hp3⟩
  rcases applyVersion_delta s.http_version_pref _ with ⟨t4, he4, hp4⟩
  rw [he4] at h3
  rcases applyDns_delta _ _ _ h3 with ⟨t5, rfl, hp5⟩
  refine ⟨sd, hsd, ?_, ?_⟩
  · intro hz op hop
    simp only [List.mem_append] at hop
    rcases hop with ((hm | hm) | hm) | hm
    · rcases hzero hz _ hm with hbase | hgrp
      · have := base_ops s.proxy_settings s.redirect_settings _ hbase
        omega
      · omega
    · have := hp3 _ hm
      omega
    · have := hp4 _ hm
      omega
    · have := hp5 _ hm
      omega
  · intro hp
    obtain ⟨m1, m2, m3⟩ := hpos hp
    simp only [List.mem_append]
    exact ⟨Or.inl (Or.inl (Or.inl m1)), Or.inl (Or.inl (Or.inl m2)),
      Or.inl (Or.inl (Or.inl m3))⟩

theorem exceptIsOk_iff {ε α : Type} {x : Except ε α} :
    exceptIsOk x = true ↔ ∃ a, x = .ok a := by
  cases x <;> simp [exceptIsOk]

theorem exceptIsOk_false_iff {ε α : Type} {x : Except ε α} :
    exceptIsOk x = false ↔ ∃ e, x = .error e := by
  cases x <;> simp [exceptIsOk]

theorem addRootCerts_mem {eng : Engine} {certs : List (List Nat)} {b b' : List BuilderOp}
    (h : addRootCerts eng certs b = .ok b') :
    ∀ c ∈ certs, ∃ pc, eng.certificateFromPem c = .ok pc ∧
      .add_root_certificate pc ∈ b' := by
  induction certs generalizing b with
  | nil => simp
  | cons c0 rest ih =>
    intro c hc
    simp only [addRootCerts] at h
    split at h
    · simp at h
    · rename_i pc hpc
      rcases List.mem_cons.mp hc with rfl | hmem
      · refine ⟨pc, hpc, ?_⟩
        rcases addRootCerts_delta eng rest _ _ h with ⟨t, rfl, _⟩
        simp
      · exact ih h c hmem

theorem addRootCerts_ok_of {eng : Engine} {certs : List (List Nat)}
    (h : ∀ c ∈ certs, exceptIsOk (eng.certificateFromPem c) = true)
    (b : List BuilderOp) : ∃ b', addRootCerts eng certs b = .ok b' := by
  induction certs generalizing b with
  | nil => exact ⟨b, rfl⟩
  | cons c0 rest ih =>
    rcases exceptIsOk_iff.mp (h c0 (by simp)) with ⟨pc, hpc⟩
    rcases ih (fun c hc => h c (by simp [hc])) (b ++ [.add_root_certificate pc]) with ⟨b', hb'⟩
    exact ⟨b', by simp [addRootCerts, hpc, hb']⟩

theorem addRootCerts_err_of {eng : Engine} {certs : List (List Nat)}
    (h : ∃ c ∈ certs, exceptIsOk (eng.certificateFromPem c) = false)
    (b : List BuilderOp) :
    ∃ m, addRootCerts eng certs b =
      .error (.RhttpUnknownError ("Error adding trusted certificate: " ++ m)) := by
  induction certs generalizing b with
  | nil => simp at h
  | cons c0 rest ih =>
    cases hc0 : eng.certificateFromPem c0 with
    | error e => exact ⟨e, by simp [addRootCerts, hc0]⟩
    | ok pc =>
      rcases h with ⟨c, hc, hbad⟩
      rcases List.mem_cons.mp hc with rfl | hmem
      · rw [hc0] at hbad
        simp [exceptIsOk] at hbad
      · rcases ih ⟨c, hmem, hbad⟩ (b ++ [.add_root_certificate pc]) with ⟨m, hm⟩
        exact ⟨m, by simp [addRootCerts, hc0, hm]⟩

theorem applyClientCertificate_some_elim {eng : Engine} {cc : ClientCertificate}
    {b b' : List BuilderOp} (h : applyClientCertificate eng (some cc) b = .ok b') :
    ∃ i, eng.identityFromPem (identityBlob cc) = .ok i ∧ b' = b ++ [.identity i] := by
  simp only [applyClientCertificate] at h
  split at h
  · simp at h
  · rename_i i hi
    simp at h
    exact ⟨i, hi, h.symm⟩

theorem applyTls_some_elim {eng : Engine} {tls : TlsSettings} {b b' : List BuilderOp}
    (h : applyTls eng (some tls) b = .ok b') :
    ∃ b1 b2,
      addRootCerts eng tls.trusted_root_certificates
        (applyTrustRootCerts tls.trust_root_certificates b) = .ok b1 ∧
      applyClientCertificate eng tls.client_certificate
        (applyVerifyCerts tls.verify_certificates b1) = .ok b2 ∧
      b' = applyMaxTls tls.max_tls_version (applyMinTls tls.min_tls_version b2) := by
  simp only [applyTls] at h
  rcases except_bind_ok.mp h with ⟨b1, h1, h2⟩
  rcases except_bind_ok.mp h2 with ⟨b2, h3, h4⟩
  simp at h4
  exact ⟨b1, b2, h1, h3, h4.symm⟩

theorem applyTls_ok_of {eng : Engine} {tls? : Option TlsSettings}
    (h : tlsOkB eng tls? = true) (b : List BuilderOp) :
    ∃ b', applyTls eng tls? b = .ok b' := by
  cases tls? with
  | none => exact ⟨b, rfl⟩
  | some tls =>
    simp only [tlsOkB, Bool.and_eq_true, List.all_eq_true] at h
    obtain ⟨hcerts, hcc⟩ := h
    obtain ⟨b1, hb1⟩ :=
      addRootCerts_ok_of hcerts (applyTrustRootCerts tls.trust_root_certificates b)
    have : ∃ b2, applyClientCertificate eng tls.client_certificate
        (applyVerifyCerts tls.verify_certificates b1) = .ok b2 := by
      cases hcase : tls.client_certificate with
      | none => exact ⟨_, rfl⟩
      | some cc =>
        rw [hcase] at hcc
        rcases exceptIsOk_iff.mp hcc with ⟨i, hi⟩
        exact ⟨applyVerifyCerts tls.verify_certificates b1 ++ [.identity i],
          by simp [applyClientCertificate, hi]⟩
    obtain ⟨b2, hb2⟩ := this
    exact ⟨applyMaxTls tls.max_tls_version (applyMinTls tls.min_tls_version b2),
      by simp [applyTls, hb1, hb2, Except.bind]⟩

theorem applyTls_ok_imp {eng : Engine} {tls? : Option TlsSettings} {b b' : List BuilderOp}
    (h : applyTls eng tls? b = .ok b') : tlsOkB eng tls? = true := by
  cases tls? with
  | none => rfl
  | some tls =>
    rcases applyTls_some_elim h with ⟨b1, b2, h1, h2, _⟩
    simp only [tlsOkB, Bool.and_eq_true, List.all_eq_true]
    constructor
    · intro c hc
      rcases addRootCerts_mem h1 c hc with ⟨pc, hpc, _⟩
      exact exceptIsOk_iff.mpr ⟨pc, hpc⟩
    · cases hcase : tls.client_certificate with
      | none => rfl
      | some cc =>
        rw [hcase] at h2
        rcases applyClientCertificate_some_elim h2 with ⟨i, hi, _⟩
        exact exceptIsOk_iff.mpr ⟨i, hi⟩

theorem createClient_mem_lift {eng : Engine} {s : ClientSettings} {rc : RequestClient}
    (h : createClient eng s = .ok rc) :
    ∃ b1 b2,
      applyTimeouts s.timeout_settings
        (applyRedirect s.redirect_settings (applyProxy s.proxy_settings [])) = .ok b1 ∧
      applyTls eng s.tls_settings b1 = .ok b2 ∧
      ∀ op, op ∈ b2 → op ∈ rc.client := by
  rcases createClient_ok_elim h with ⟨b1, b2, b3, h1, h2, h3, _, rfl⟩
  rcases applyVersion_delta s.http_version_pref b2 with ⟨t4, he4, _⟩
  rw [he4] at h3
  rcases applyDns_delta _ _ _ h3 with ⟨t5, rfl, _⟩
  exact ⟨b1, b2, h1, h2, fun op hop => by simp [hop]⟩

theorem parseOverrideList_fst_none_iff {l : List String} :
    (parseOverrideList l).1 = none ↔
      ∀ ip ∈ l, (socketAddrFromStr (ip ++ ":" ++ dummyPort)).isSome = true := by
  induction l with
  | nil => simp [parseOverrideList]
  | cons ip rest ih =>
    rcases hrec : parseOverrideList rest with ⟨e?, addrs⟩
    rw [hrec] at ih
    cases hp : socketAddrFromStr (ip ++ ":" ++ dummyPort) with
    | some a => simp [parseOverrideList, hp, hrec, ih]
    | none =>
      cases e? with
      | some m => simp [parseOverrideList, hp, hrec]
      | none => simp [parseOverrideList, hp, hrec]

theorem parseOverrideList_fst_some_elim {l : List String} {msg : String}
    (h : (parseOverrideList l).1 = some msg) :
    ∃ ip ∈ l, socketAddrFromStr (ip ++ ":" ++ dummyPort) = none ∧
      msg = invalidIpMsg ip := by
  induction l with
  | nil => simp [parseOverrideList] at h
  | cons ip rest ih =>
    rcases hrec : parseOverrideList rest with ⟨e?, addrs⟩
    rw [hrec] at ih
    cases hp : socketAddrFromStr (ip ++ ":" ++ dummyPort) with
    | some a =>
      simp only [parseOverrideList, hp, hrec] at h
      rcases ih h with ⟨ip', hm, hn, hmsg⟩
      exact ⟨ip', by simp [hm], hn, hmsg⟩
    | none =>
      cases e? with
      | some m =>
        simp only [parseOverrideList, hp, hrec] at h
        rcases ih h with ⟨ip', hm, hn, hmsg⟩
        exact ⟨ip', by simp [hm], hn, hmsg⟩
      | none =>
        simp only [parseOverrideList, hp, hrec, Option.some.injEq] at h
        exact ⟨ip, by simp, hp, h.symm⟩

theorem parseOverrideList_fst_some_of {l : List String}
    (h : ∃ ip ∈ l, socketAddrFromStr (ip ++ ":" ++ dummyPort) = none) :
    ∃ m, (parseOverrideList l).1 = some m := by
  cases hf : (parseOverrideList l).1 with
  | some m => exact ⟨m, rfl⟩
  | none =>
    rcases h with ⟨ip, hm, hn⟩
    have := parseOverrideList_fst_none_iff.mp hf ip hm
    rw [hn] at this
    simp at this

theorem applyOverrides_ok_imp {l : List (String × List String)} {b b' : List BuilderOp}
    (h : applyOverrides l b = .ok b') : ∀ e ∈ l, overrideEntryOkB e = true := by
  induction l generalizing b with
  | nil => simp
  | cons e0 rest ih =>
    obtain ⟨host, ips⟩ := e0
    intro e he
    simp only [applyOverrides] at h
    split at h
    · simp at h
    · rename_i addrs heq
      rcases List.mem_cons.mp he with rfl | hmem
      · simp [overrideEntryOkB, heq]
      · exact ih h e hmem

theorem applyOverrides_ok_of {l : List (String × List String)}
    (h : ∀ e ∈ l, overrideEntryOkB e = true) (b : List BuilderOp) :
    ∃ b', applyOverrides l b = .ok b' := by
  induction l generalizing b with
  | nil => exact ⟨b, rfl⟩
  | cons e0 rest ih =>
    obtain ⟨host, ips⟩ := e0
    rcases hrec : parseOverrideList ips with ⟨e?, addrs⟩
    have hok : e? = none := by
      have := h (host, ips) (by simp)
      simp [overrideEntryOkB, hrec] at this
      exact this
    subst hok
    rcases ih (fun e he => h e (by simp [he])) (b ++ [.resolve_to_addrs host addrs])
      with ⟨b', hb'⟩
    exact ⟨b', by simp [applyOverrides, hrec, hb']⟩

theorem applyOverrides_err_of {l : List (String × List String)}
    (hbad : ∃ e ∈ l, overrideEntryOkB e = false) (b : List BuilderOp) :
    ∃ host ips ip, (host, ips) ∈ l ∧ ip ∈ ips ∧
      socketAddrFromStr (ip ++ ":" ++ dummyPort) = none ∧
      applyOverrides l b = .error (.RhttpUnknownError (invalidIpMsg ip)) := by
  induction l generalizing b with
  | nil => simp at hbad
  | cons e0 rest ih =>
    obtain ⟨host0, ips0⟩ := e0
    rcases hrec : parseOverrideList ips0 with ⟨e?, addrs⟩
    cases e? with
    | some m =>
      have hfst : (parseOverrideList ips0).1 = some m := by rw [hrec]
      rcases parseOverrideList_fst_some_elim hfst with ⟨ip, hip, hn, hmsg⟩
      refine ⟨host0, ips0, ip, by simp, hip, hn, ?_⟩
      rw [← hmsg]
      simp [applyOverrides, hrec]
    | none =>
      have hbad' : ∃ e ∈ rest, overrideEntryOkB e = false := by
        rcases hbad with ⟨e, he, hfalse⟩
        rcases List.mem_cons.mp he with rfl | hmem
        · simp [overrideEntryOkB, hrec] at hfalse
        · exact ⟨e, hmem, hfalse⟩
      rcases ih hbad' (b ++ [.resolve_to_addrs host0 addrs])
        with ⟨host, ips, ip, hm, hip, hn, happ⟩
      exact ⟨host, ips, ip, by simp [hm], hip, hn, by simp [applyOverrides, hrec, happ]⟩

theorem applyFallback_ok_of {fb? : Option String} (h : fallbackOkB fb? = true)
    (b : List BuilderOp) : ∃ b', applyFallback fb? b = .ok b' := by
  cases fb? with
  | none => exact ⟨b, rfl⟩
  | some fb =>
    simp only [fallbackOkB] at h
    rcases Option.isSome_iff_exists.mp h with ⟨a, ha⟩
    exact ⟨b ++ [.dns_resolver ⟨a⟩], by simp [applyFallback, ha]⟩

theorem applyFallback_ok_imp {fb? : Option String} {b b' : List BuilderOp}
    (h : applyFallback fb? b = .ok b') : fallbackOkB fb? = true := by
  cases fb? with
  | none => rfl
  | some fb =>
    simp only [applyFallback] at h
    split at h
    · rename_i a ha
      simp [fallbackOkB, ha]
    · simp at h

theorem applyDns_ok_imp {dns? : Option DnsSettings} {b b' : List BuilderOp}
    (h : applyDns dns? b = .ok b') : dnsOkB dns? = true := by
  cases dns? with
  | none => rfl
  | some dns =>
    simp only [applyDns] at h
    rcases except_bind_ok.mp h with ⟨b1, h1, h2⟩
    simp only [dnsOkB, Bool.and_eq_true, List.all_eq_true]
    exact ⟨applyFallback_ok_imp h1, applyOverrides_ok_imp h2⟩

theorem applyDns_ok_of {dns? : Option DnsSettings} (h : dnsOkB dns? = true)
    (b : List BuilderOp) : ∃ b', applyDns dns? b = .ok b' := by
  cases dns? with
  | none => exact ⟨b, rfl⟩
  | some dns =>
    simp only [dnsOkB, Bool.and_eq_true, List.all_eq_true] at h
    obtain ⟨hfb, hov⟩ := h
    obtain ⟨b1, hb1⟩ := applyFallback_ok_of hfb b
    obtain ⟨b2, hb2⟩ := applyOverrides_ok_of hov b1
    exact ⟨b2, by simp [applyDns, hb1, hb2, Except.bind]⟩

theorem createClient_isOk_eq {eng : Engine} (hb : ∀ t, eng.buildErr t = none)
    (s : ClientSettings) :
    exceptIsOk (createClient eng s) =
      (timeoutsOkB s.timeout_settings && tlsOkB eng s.tls_settings &&
        dnsOkB s.dns_settings) := by
  cases hc : createClient eng s with
  | ok rc =>
    rcases createClient_ok_elim hc with ⟨b1, b2, b3, h1, h2, h3, _, _⟩
    simp [exceptIsOk, applyTimeouts_ok_imp h1, applyTls_ok_imp h2, applyDns_ok_imp h3]
  | error e =>
    cases hRHS : (timeoutsOkB s.timeout_settings && tlsOkB eng s.tls_settings &&
        dnsOkB s.dns_settings) with
    | false => simp [exceptIsOk]
    | true =>
      exfalso
      simp only [Bool.and_eq_true] at hRHS
      obtain ⟨⟨hT, hTls⟩, hD⟩ := hRHS
      obtain ⟨b1, h1⟩ := applyTimeouts_ok_of hT
        (applyRedirect s.redirect_settings (applyProxy s.proxy_settings []))
      obtain ⟨b2, h2⟩ := applyTls_ok_of hTls b1
      obtain ⟨b3, h3⟩ := applyDns_ok_of hD (applyVersion s.http_version_pref b2)
      have hok := createClient_ok_intro h1 h2 h3 (hb b3)
      rw [hc] at hok
      simp at hok

theorem perm_all_eq {α : Type} {l₁ l₂ : List α} (h : l₁.Perm l₂) (p : α → Bool) :
    l₁.all p = l₂.all p := by
  induction h with
  | nil => rfl
  | cons x _ ih => simp [List.all_cons, ih]
  | swap x y l => simp [List.all_cons, Bool.and_left_comm]
  | trans _ _ ih1 ih2 => rw [ih1, ih2]

theorem createClient_err_tls {eng : Engine} {s : ClientSettings} {b1 : List BuilderOp}
    {e : RhttpError}
    (h1 : applyTimeouts s.timeout_settings
        (applyRedirect s.redirect_settings (applyProxy s.proxy_settings [])) = .ok b1)
    (h2 : applyTls eng s.tls_settings b1 = .error e) :
    createClient eng s = .error e := by
  simp [createClient, h1, h2, Except.bind]

/-! The claims. -/

/-- C1 counterexample: the override list for `example.test` contains the
    string `"[::1]"`, which fails to parse as a literal IP address, yet
    `create_client` returns a client: the pipeline parses each string with
    a dummy port appended as a socket address, which accepts the bracketed
    IPv6 form that the IP-literal parser rejects. -/
theorem c1_counterexample :
    ipAddrFromStr "[::1]" = none ∧ createClient okEng sBracket = .ok rcBracket := by
  exact ⟨by decide, by decide⟩

/-- C1 (amended): if any string in some override entry's address list fails
    to parse as a socket address once the dummy port is appended, and the
    stages before the overrides loop pass, `create_client` returns an error
    naming an offending literal of some offending entry together with the
    parse failure reason, and no client is returned. -/
theorem c1_override_parse_failure (eng : Engine) (s : ClientSettings)
    (dns : DnsSettings) (hdns : s.dns_settings = some dns)
    (hbad : ∃ e ∈ dns.overrides, ∃ ip ∈ e.2,
      socketAddrFromStr (ip ++ ":" ++ dummyPort) = none)
    (hT : timeoutsOkB s.timeout_settings = true)
    (hTls : tlsOkB eng s.tls_settings = true)
    (hfb : fallbackOkB dns.fallback = true) :
    ∃ host ips ip, (host, ips) ∈ dns.overrides ∧ ip ∈ ips ∧
      socketAddrFromStr (ip ++ ":" ++ dummyPort) = none ∧
      createClient eng s = .error (.RhttpUnknownError (invalidIpMsg ip)) := by
  obtain ⟨b1, h1⟩ := applyTimeouts_ok_of hT
    (applyRedirect s.redirect_settings (applyProxy s.proxy_settings []))
  obtain ⟨b2, h2⟩ := applyTls_ok_of hTls b1
  obtain ⟨bf, hbf⟩ := applyFallback_ok_of hfb (applyVersion s.http_version_pref b2)
  have hbad2 : ∃ e ∈ dns.overrides, overrideEntryOkB e = false := by
    rcases hbad with ⟨e, he, ip, hip, hn⟩
    rcases parseOverrideList_fst_some_of ⟨ip, hip, hn⟩ with ⟨m, hm⟩
    exact ⟨e, he, by simp [overrideEntryOkB, hm]⟩
  rcases applyOverrides_err_of hbad2 bf with ⟨host, ips, ip, hm, hip, hn, herr⟩
  have hdnsErr : applyDns s.dns_settings (applyVersion s.http_version_pref b2) =
      .error (.RhttpUnknownError (invalidIpMsg ip)) := by
    rw [hdns]
    simp [applyDns, hbf, herr, Except.bind]
  exact ⟨host, ips, ip, hm, hip, hn, createClient_err_dns h1 h2 hdnsErr⟩

/-- C1 witness: on the override list `["1.2.3.4", "not-an-ip"]` for
    `example.test`, construction fails with the error naming `not-an-ip`. -/
theorem c1_witness :
    ∃ host ips ip, (host, ips) ∈ [("example.test", ["1.2.3.4", "not-an-ip"])] ∧
      ip ∈ ips ∧ socketAddrFromStr (ip ++ ":" ++ dummyPort) = none ∧
      createClient okEng sMixed = .error (.RhttpUnknownError (invalidIpMsg ip)) :=
  c1_override_parse_failure okEng sMixed
    { overrides := [("example.test", ["1.2.3.4", "not-an-ip"])], fallback := none }
    rfl
    ⟨("example.test", ["1.2.3.4", "not-an-ip"]), by decide, "not-an-ip", by decide, by decide⟩
    rfl rfl rfl

/-- C2 counterexample: with HTTP/2 forced and a DNS fallback configured,
    the built client's call trace places `http2_prior_knowledge` before the
    `dns_resolver` installation, so version forcing is applied before, not
    after, the DNS group. -/
theorem c2_counterexample :
    createClient okEng sHttp2Dns = .ok rcHttp2Dns ∧
    rcHttp2Dns.client = [.http2_prior_knowledge,
      .dns_resolver ⟨.v4 ⟨⟨9, 9, 9, 9⟩, 1111⟩⟩] := by
  exact ⟨by decide, rfl⟩

/-- C2 (amended): in every successfully built client the trace decomposes
    as a prefix of proxy, redirect, timeout and TLS calls (groups at most
    4), then the HTTP-version forcing calls (group 5), then the DNS calls
    (group 6): version forcing happens after proxy, redirect, timeout and
    TLS configuration and before DNS configuration. -/
theorem c2_version_order (eng : Engine) (s : ClientSettings) (rc : RequestClient)
    (h : createClient eng s = .ok rc) :
    ∃ pre ver dns, rc.client = pre ++ ver ++ dns ∧
      (∀ op ∈ pre, opGroup op ≤ 4) ∧
      (∀ op ∈ ver, opGroup op = 5) ∧
      (∀ op ∈ dns, opGroup op = 6) :=
  createClient_decomp h

/-- C2 witness: the decomposition instantiated on the HTTP/2 + fallback
    settings. -/
theorem c2_witness :
    ∃ pre ver dns, rcHttp2Dns.client = pre ++ ver ++ dns ∧
      (∀ op ∈ pre, opGroup op ≤ 4) ∧
      (∀ op ∈ ver, opGroup op = 5) ∧
      (∀ op ∈ dns, opGroup op = 6) :=
  c2_version_order okEng sHttp2Dns rcHttp2Dns (by decide)

/-- C3 counterexample: a keep-alive timeout of half a millisecond is
    strictly positive, yet none of the three keep-alive effects is applied:
    the built client's call trace is empty because the code gates on
    `as_millis() > 0`. -/
theorem c3_counterexample :
    (0 : Int) < 500000 ∧ tsHalfMilli.keep_alive_timeout = some 500000 ∧
    createClient okEng sHalfMilli = .ok rcEmptyDefault ∧ rcEmptyDefault.client = [] := by
  exact ⟨by decide, rfl, by decide, rfl⟩

/-- C3 (amended): with a present keep-alive timeout, construction success
    forces the duration to convert; if the converted duration is below one
    millisecond (`as_millis() = 0`, which includes zero and all positive
    sub-millisecond values) none of the three keep-alive calls appears on
    the builder, and if it is at least one millisecond all three appear,
    the TCP keepalive and the HTTP/2 keep-alive timeout sharing that same
    duration. -/
theorem c3_keepalive (eng : Engine) (s : ClientSettings) (ts : TimeoutSettings)
    (d : ChronoDuration) (rc : RequestClient)
    (hts : s.timeout_settings = some ts) (hk : ts.keep_alive_timeout = some d)
    (h : createClient eng s = .ok rc) :
    ∃ sd, chronoToStd d = .ok sd ∧
      (asMillis sd = 0 → ∀ op ∈ rc.client, opGroup op ≠ 3) ∧
      (0 < asMillis sd → .tcp_keepalive sd ∈ rc.client ∧
        .http2_keep_alive_while_idle true ∈ rc.client ∧
        .http2_keep_alive_timeout sd ∈ rc.client) :=
  createClient_keepalive hts hk h

/-- C3 witness: at five milliseconds all three keep-alive calls are on the
    built client's trace with matching duration. -/
theorem c3_witness :
    ∃ sd, chronoToStd 5000000 = .ok sd ∧
      (asMillis sd = 0 → ∀ op ∈ rcFiveMilli.client, opGroup op ≠ 3) ∧
      (0 < asMillis sd → .tcp_keepalive sd ∈ rcFiveMilli.client ∧
        .http2_keep_alive_while_idle true ∈ rcFiveMilli.client ∧
        .http2_keep_alive_timeout sd ∈ rcFiveMilli.client) :=
  c3_keepalive okEng sFiveMilli tsFiveMilli 5000000 rcFiveMilli rfl rfl (by decide)

/-- C4: `NoRedirect` puts the zero-redirect policy `Policy::none()` on the
    builder; `LimitedRedirects(n)` puts `Policy::limited` of the `as usize`
    cast of `n`, with no special-casing of zero or negative `n` anywhere in
    the pipeline; for `n` in the nonnegative `i32` range the value passed
    is `n` itself. -/
theorem c4_redirects (eng : Engine) (s : ClientSettings) (rc : RequestClient)
    (h : createClient eng s = .ok rc) :
    (s.redirect_settings = some .NoRedirect → .redirect .none ∈ rc.client) ∧
    (∀ n : Int, s.redirect_settings = some (.LimitedRedirects n) →
      .redirect (.limited (i32ToUsize n)) ∈ rc.client ∧
      (0 ≤ n → n < 2 ^ 31 → i32ToUsize n = n.toNat)) := by
  rcases createClient_ok_elim h with ⟨b1, b2, b3, h1, h2, h3, _, rfl⟩
  rcases applyTimeouts_delta _ _ _ h1 with ⟨t2, rfl, _⟩
  rcases applyTls_delta eng _ _ _ h2 with ⟨t3, rfl, _⟩
  rcases applyVersion_delta s.http_version_pref _ with ⟨t4, he4, _⟩
  rw [he4] at h3
  rcases applyDns_delta _ _ _ h3 with ⟨t5, rfl, _⟩
  constructor
  · intro hr
    rw [hr]
    simp [applyRedirect]
  · intro n hr
    rw [hr]
    constructor
    · simp [applyRedirect]
    · intro hn0 hn1
      unfold i32ToUsize
      omega

/-- C4 witness: with `LimitedRedirects 3` the builder carries
    `Policy::limited(3)`. -/
theorem c4_witness :
    (sRedirect3.redirect_settings = some .NoRedirect →
      .redirect .none ∈ (RequestClient.mk [.redirect (.limited 3)] .All true ()).client) ∧
    (∀ n : Int, sRedirect3.redirect_settings = some (.LimitedRedirects n) →
      .redirect (.limited (i32ToUsize n)) ∈
        (RequestClient.mk [.redirect (.limited 3)] .All true ()).client ∧
      (0 ≤ n → n < 2 ^ 31 → i32ToUsize n = n.toNat)) :=
  c4_redirects okEng sRedirect3 (RequestClient.mk [.redirect (.limited 3)] .All true ())
    (by decide)

/-- C5 counterexample: the fallback string `"::1"` parses as a literal IP
    address, yet `create_client` aborts with the address parse error
    instead of installing a resolver: the pipeline parses the fallback with
    a dummy port appended as a socket address, which rejects plain IPv6
    literals. -/
theorem c5_counterexample :
    (∃ a, ipAddrFromStr "::1" = some a) ∧
    createClient okEng sV6Fallback = .error (.RhttpUnknownError socketAddrErrDebug) := by
  exact ⟨⟨.v6 ⟨[0, 0, 0, 0, 0, 0, 0, 1]⟩, by decide⟩, by decide⟩

/-- C5 (amended): `StaticResolver::resolve` ignores its hostname argument
    and always immediately succeeds with the one bound address; a present
    DNS fallback string is parsed with the dummy port appended as a socket
    address — on success a `StaticResolver` bound to the parsed address is
    installed as the catch-all resolver of every built client, and on
    failure construction aborts with no client returned. -/
theorem c5_static_resolver (eng : Engine) (s : ClientSettings) (dns : DnsSettings)
    (fb : String) (hdns : s.dns_settings = some dns) (hfb : dns.fallback = some fb) :
    (∀ (r : StaticResolver) (h1 h2 : String),
      r.resolve h1 = .ok [r.address] ∧ r.resolve h1 = r.resolve h2) ∧
    (∀ a, socketAddrFromStr (fb ++ ":" ++ dummyPort) = some a →
      ∀ rc, createClient eng s = .ok rc → .dns_resolver ⟨a⟩ ∈ rc.client) ∧
    (socketAddrFromStr (fb ++ ":" ++ dummyPort) = none →
      ∀ rc, createClient eng s ≠ .ok rc) := by
  refine ⟨fun r h1 h2 => ⟨rfl, rfl⟩, ?_, ?_⟩
  · intro a ha rc h
    rcases createClient_ok_elim h with ⟨b1, b2, b3, _, _, h3, _, rfl⟩
    rw [hdns] at h3
    simp only [applyDns] at h3
    rcases except_bind_ok.mp h3 with ⟨bf, hbf, hov⟩
    rw [hfb] at hbf
    simp only [applyFallback, ha] at hbf
    simp at hbf
    rcases applyOverrides_delta _ _ _ hov with ⟨t, rfl, _⟩
    rw [← hbf]
    simp
  · intro hn rc h
    rcases createClient_ok_elim h with ⟨b1, b2, b3, _, _, h3, _, _⟩
    rw [hdns] at h3
    simp only [applyDns] at h3
    rcases except_bind_ok.mp h3 with ⟨bf, hbf, _⟩
    have := applyFallback_ok_imp hbf
    rw [hfb] at this
    simp only [fallbackOkB, hn] at this
    simp at this

/-- C5 witness: with fallback `9.9.9.9` the resolver bound to
    `9.9.9.9:1111` resolves an arbitrary hostname to that address and is
    installed on the built client. -/
theorem c5_witness :
    (⟨.v4 ⟨⟨9, 9, 9, 9⟩, 1111⟩⟩ : StaticResolver).resolve "unconfigured.example" =
      .ok [.v4 ⟨⟨9, 9, 9, 9⟩, 1111⟩] ∧
    .dns_resolver ⟨.v4 ⟨⟨9, 9, 9, 9⟩, 1111⟩⟩ ∈
      (RequestClient.mk [.dns_resolver ⟨.v4 ⟨⟨9, 9, 9, 9⟩, 1111⟩⟩] .All true ()).client := by
  have h := c5_static_resolver okEng sFallback99
    { overrides := [], fallback := some "9.9.9.9" } "9.9.9.9" rfl rfl
  exact ⟨(h.1 ⟨.v4 ⟨⟨9, 9, 9, 9⟩, 1111⟩⟩ "unconfigured.example" "other.example").1,
    h.2.1 (.v4 ⟨⟨9, 9, 9, 9⟩, 1111⟩) (by decide)
      (RequestClient.mk [.dns_resolver ⟨.v4 ⟨⟨9, 9, 9, 9⟩, 1111⟩⟩] .All true ())
      (by decide)⟩

/-- C6 counterexample: the overrides map with entries `a ↦ ["x"]` and
    `b ↦ ["y"]` (both invalid literals) can be visited in either order, the
    two orders being permutations of one another; the two runs return
    different errors, one naming `x`, the other naming `y`. -/
theorem c6_counterexample :
    List.Perm [("a", ["x"]), ("b", ["y"])] [("b", ["y"]), ("a", ["x"])] ∧
    createClient okEng sTwoBadA =
      .error (.RhttpUnknownError (invalidIpMsg "x")) ∧
    createClient okEng sTwoBadB =
      .error (.RhttpUnknownError (invalidIpMsg "y")) ∧
    createClient okEng sTwoBadA ≠ createClient okEng sTwoBadB := by
  exact ⟨List.Perm.swap _ _ _, by decide, by decide, by decide⟩

/-- C6 (amended): `create_client` is a deterministic function of the
    settings together with the override-map iteration order, and — when the
    engine's final build never fails — whether construction succeeds does
    not depend on that order; only the identity of the error produced may
    differ between iteration orders. -/
theorem c6_determinism (eng : Engine) (s : ClientSettings) (dns1 dns2 : DnsSettings)
    (hb : ∀ t, eng.buildErr t = none)
    (hperm : dns1.overrides.Perm dns2.overrides)
    (hfb : dns1.fallback = dns2.fallback) :
    createClient eng s = createClient eng s ∧
    exceptIsOk (createClient eng { s with dns_settings := some dns1 }) =
      exceptIsOk (createClient eng { s with dns_settings := some dns2 }) := by
  refine ⟨rfl, ?_⟩
  rw [createClient_isOk_eq hb, createClient_isOk_eq hb]
  simp only [dnsOkB]
  rw [hfb, perm_all_eq hperm]

/-- C6 witness: the order-independence of the success status instantiated
    on the two iteration orders of the two-entry overrides map. -/
theorem c6_witness :
    createClient okEng ClientSettings.default = createClient okEng ClientSettings.default ∧
    exceptIsOk (createClient okEng { ClientSettings.default with
        dns_settings := some { overrides := [("a", ["x"]), ("b", ["y"])], fallback := none } }) =
      exceptIsOk (createClient okEng { ClientSettings.default with
        dns_settings := some { overrides := [("b", ["y"]), ("a", ["x"])], fallback := none } }) :=
  c6_determinism okEng ClientSettings.default
    { overrides := [("a", ["x"]), ("b", ["y"])], fallback := none }
    { overrides := [("b", ["y"]), ("a", ["x"])], fallback := none }
    (fun _ => rfl) (List.Perm.swap _ _ _) rfl

/-- C7: with a client certificate present, every successful construction
    parses the blob made of the certificate PEM bytes, one newline byte and
    the private-key PEM bytes as a combined identity and installs the
    parsed identity on the builder; if that parse fails, no client is ever
    returned. -/
theorem c7_client_certificate (eng : Engine) (s : ClientSettings) (tls : TlsSettings)
    (cc : ClientCertificate) (htls : s.tls_settings = some tls)
    (hcc : tls.client_certificate = some cc) :
    (∀ rc, createClient eng s = .ok rc →
      ∃ i, eng.identityFromPem (cc.certificate ++ [10] ++ cc.private_key) = .ok i ∧
        .identity i ∈ rc.client) ∧
    (∀ e, eng.identityFromPem (cc.certificate ++ [10] ++ cc.private_key) = .error e →
      ∀ rc, createClient eng s ≠ .ok rc) := by
  have hmain : ∀ rc, createClient eng s = .ok rc →
      ∃ i, eng.identityFromPem (cc.certificate ++ [10] ++ cc.private_key) = .ok i ∧
        .identity i ∈ rc.client := by
    intro rc h
    rcases createClient_mem_lift h with ⟨b1, b2, _, h2, hlift⟩
    rw [htls] at h2
    rcases applyTls_some_elim h2 with ⟨ba, bb, _, hccstep, hb2⟩
    rw [hcc] at hccstep
    rcases applyClientCertificate_some_elim hccstep with ⟨i, hi, rfl⟩
    refine ⟨i, ?_, ?_⟩
    · simpa [identityBlob, newlineByte] using hi
    · apply hlift
      rw [hb2]
      rcases applyMinTls_delta tls.min_tls_version _ with ⟨t4, he4, _⟩
      rcases applyMaxTls_delta tls.max_tls_version _ with ⟨t5, he5, _⟩
      rw [he5, he4]
      simp
  refine ⟨hmain, ?_⟩
  intro e he rc h
  rcases hmain rc h with ⟨i, hi, _⟩
  rw [he] at hi
  simp at hi

/-- C7 witness: the identity blob of the concrete certificate `[1, 2]` and
    key `[3]` is `[1, 2, 10, 3]` and the parsed identity is installed. -/
theorem c7_witness :
    ∃ i, okEng.identityFromPem ([1, 2] ++ [10] ++ [3]) = .ok i ∧
      .identity i ∈ (RequestClient.mk [.identity [1, 2, 10, 3]] .All true ()).client := by
  have h := c7_client_certificate okEng sClientCert
    { trust_root_certificates := true
      trusted_root_certificates := []
      verify_certificates := true
      client_certificate := some { certificate := [1, 2], private_key := [3] }
      min_tls_version := none
      max_tls_version := none }
    { certificate := [1, 2], private_key := [3] } rfl rfl
  exact h.1 (RequestClient.mk [.identity [1, 2, 10, 3]] .All true ()) (by decide)

/-- C8: every successful construction parses each trusted root certificate
    and adds the parsed certificate to the builder; if any entry fails to
    parse, no client is ever returned, and (when the earlier timeout stage
    passes) the returned error's message identifies that adding a trusted
    certificate failed. -/
theorem c8_root_certificates (eng : Engine) (s : ClientSettings) (tls : TlsSettings)
    (htls : s.tls_settings = some tls) :
    (∀ rc, createClient eng s = .ok rc →
      ∀ c ∈ tls.trusted_root_certificates, ∃ pc,
        eng.certificateFromPem c = .ok pc ∧ .add_root_certificate pc ∈ rc.client) ∧
    ((∃ c ∈ tls.trusted_root_certificates, ∃ e, eng.certificateFromPem c = .error e) →
      (∀ rc, createClient eng s ≠ .ok rc) ∧
      (timeoutsOkB s.timeout_settings = true →
        ∃ m, createClient eng s =
          .error (.RhttpUnknownError ("Error adding trusted certificate: " ++ m)))) := by
  constructor
  · intro rc h c hc
    rcases createClient_mem_lift h with ⟨b1, b2, _, h2, hlift⟩
    rw [htls] at h2
    rcases applyTls_some_elim h2 with ⟨ba, bb, hroots, hccstep, hb2⟩
    rcases addRootCerts_mem hroots c hc with ⟨pc, hpc, hmem⟩
    refine ⟨pc, hpc, hlift _ ?_⟩
    rw [hb2]
    rcases applyClientCertificate_delta eng tls.client_certificate _ _ hccstep
      with ⟨tc, rfl, _⟩
    rcases applyVerifyCerts_delta tls.verify_certificates ba with ⟨tv, hev, _⟩
    rcases applyMinTls_delta tls.min_tls_version _ with ⟨t4, he4, _⟩
    rcases applyMaxTls_delta tls.max_tls_version _ with ⟨t5, he5, _⟩
    rw [he5, he4, hev]
    simp [hmem]
  · intro hbad
    have hbad2 : ∃ c ∈ tls.trusted_root_certificates,
        exceptIsOk (eng.certificateFromPem c) = false := by
      rcases hbad with ⟨c, hc, e, he⟩
      exact ⟨c, hc, exceptIsOk_false_iff.mpr ⟨e, he⟩⟩
    constructor
    · intro rc h
      have := applyTls_ok_imp (createClient_ok_elim h).choose_spec.choose_spec.choose_spec.2.1
      rw [htls] at this
      simp only [tlsOkB, Bool.and_eq_true, List.all_eq_true] at this
      rcases hbad2 with ⟨c, hc, hfalse⟩
      rw [this.1 c hc] at hfalse
      simp at hfalse
    · intro hT
      obtain ⟨b1, h1⟩ := applyTimeouts_ok_of hT
        (applyRedirect s.redirect_settings (applyProxy s.proxy_settings []))
      rcases addRootCerts_err_of hbad2
        (applyTrustRootCerts tls.trust_root_certificates b1) with ⟨m, hm⟩
      refine ⟨m, createClient_err_tls h1 ?_⟩
      rw [htls]
      simp [applyTls, hm, Except.bind]

/-- C8 witness: on an engine that rejects the PEM bytes `[7, 8]`,
    construction with that trusted root certificate fails with the
    certificate-addition error. -/
theorem c8_witness :
    ∃ m, createClient badCertEng sRootCert =
      .error (.RhttpUnknownError ("Error adding trusted certificate: " ++ m)) := by
  have h := c8_root_certificates badCertEng sRootCert
    { trust_root_certificates := true
      trusted_root_certificates := [[7, 8]]
      verify_certificates := true
      client_certificate := none
      min_tls_version := none
      max_tls_version := none } rfl
  exact (h.2 ⟨[7, 8], by decide, "pem parse failure", rfl⟩).2 rfl

/-- C9: the default settings are All HTTP versions, no timeout settings,
    throw-on-status true and no proxy, redirect, TLS or DNS group; and
    every successfully built client carries the input settings' HTTP
    version preference and status-throw flag unchanged. -/
theorem c9_defaults_and_retention :
    (ClientSettings.default.http_version_pref = .All ∧
     ClientSettings.default.timeout_settings = none ∧
     ClientSettings.default.throw_on_status_code = true ∧
     ClientSettings.default.proxy_settings = none ∧
     ClientSettings.default.redirect_settings = none ∧
     ClientSettings.default.tls_settings = none ∧
     ClientSettings.default.dns_settings = none) ∧
    ∀ (eng : Engine) (s : ClientSettings) (rc : RequestClient),
      createClient eng s = .ok rc →
      rc.http_version_pref = s.http_version_pref ∧
      rc.throw_on_status_code = s.throw_on_status_code := by
  refine ⟨⟨rfl, rfl, rfl, rfl, rfl, rfl, rfl⟩, ?_⟩
  intro eng s rc h
  rcases createClient_ok_elim h with ⟨b1, b2, b3, _, _, _, _, rfl⟩
  exact ⟨rfl, rfl⟩

/-- C9 witness: the client built from the default settings carries the
    default preference and flag. -/
theorem c9_witness :
    rcEmptyDefault.http_version_pref = ClientSettings.default.http_version_pref ∧
    rcEmptyDefault.throw_on_status_code = ClientSettings.default.throw_on_status_code :=
  c9_defaults_and_retention.2 okEng ClientSettings.default rcEmptyDefault (by decide)

/-- C10 counterexample: on an engine whose final build fails,
    `create_client` applied to the default settings returns an error, so
    `Ok` is not unconditional and the unwrap in `new_default` is protected
    only as far as the engine's own build succeeds. -/
theorem c10_counterexample :
    createClient failBuildEng ClientSettings.default =
      .error (.RhttpUnknownError "reqwest build failure") := by
  decide

/-- C10 (amended): on the default settings no pipeline error branch before
    the final engine build is reachable — the builder reaches the engine's
    build with an empty call trace, and `create_client` returns `Ok`
    exactly when that build succeeds, the error otherwise being the wrapped
    build failure; hence the unwrap in `new_default` can only panic on an
    engine build failure. -/
theorem c10_default_ok (eng : Engine) :
    (eng.buildErr [] = none →
      createClient eng ClientSettings.default = .ok rcEmptyDefault) ∧
    (∀ e, eng.buildErr [] = some e →
      createClient eng ClientSettings.default = .error (.RhttpUnknownError e)) := by
  constructor
  · intro hb
    exact @createClient_ok_intro eng ClientSettings.default [] [] [] rfl rfl rfl hb
  · intro e hb
    simp [createClient, ClientSettings.default, applyTimeouts, applyTls, applyDns,
      applyProxy, applyRedirect, applyVersion, hb, Except.bind]

/-- C10 witness: on the engine whose build always succeeds, the default
    settings build the empty-trace client. -/
theorem c10_witness :
    createClient okEng ClientSettings.default = .ok rcEmptyDefault :=
  (c10_default_ok okEng).1 rfl

end Rhttp
